import Mathlib

/-!
Verification of the NPM Policy Dataplane Engine (Windows / endpoint-batching
backend build) against its natural-language specification.

The definitions below are a shallow embedding of
`npm/pkg/dataplane/policies/policymanager.go` and
`npm/pkg/dataplane/policies/policymanager_windows.go`.

Go `map[string]V` values are embedded as association lists with unique keys;
iteration order of a Go map is unspecified, so we prove properties for the
list order at hand (all claims are order-robust).  In-place mutation of the
`*NPMNetworkPolicy` objects held by the cache is embedded by threading the
updated policy value back into the cache wherever the Go code mutates the
pointed-to object.  Calls into the OS backend (HNS) are embedded as a pure
oracle (`Hns`) plus an explicit event log (`HnsEvent`) recording which
backend calls were issued.
-/

/-- Association-list lookup, embedding Go `v, ok := m[k]` for `map[string]V`. -/
def alLookup {β : Type} (m : List (String × β)) (k : String) : Option β :=
  (m.find? (fun p => p.1 == k)).map (fun p => p.2)

/-- Association-list delete, embedding Go `delete(m, k)`. -/
def alErase {β : Type} (m : List (String × β)) (k : String) : List (String × β) :=
  m.filter (fun p => p.1 != k)

/-- Association-list insert/replace, embedding Go `m[k] = v`. -/
def alInsert {β : Type} (m : List (String × β)) (k : String) (v : β) : List (String × β) :=
  alErase m k ++ [(k, v)]

/-- The keys of an association list are pairwise distinct (true of any Go map). -/
def nodupKeys {β : Type} (m : List (String × β)) : Prop :=
  (m.map (fun p => p.1)).Nodup

instance {β : Type} (m : List (String × β)) : Decidable (nodupKeys m) := by
  unfold nodupKeys; infer_instance

/-- hcn.ActionTypeAllow. -/
def ActionTypeAllow : String := "Allow"
/-- hcn.ActionTypeBlock. -/
def ActionTypeBlock : String := "Block"
/-- hcn.DirectionTypeIn. -/
def DirectionTypeIn : String := "In"
/-- hcn.DirectionTypeOut. -/
def DirectionTypeOut : String := "Out"
/-- hcn.RuleTypeSwitch. -/
def RuleTypeSwitch : String := "Switch"
/-- hcn.RuleTypeHost. -/
def RuleTypeHost : String := "Host"

/-- Priority constant `priority201 = 201` from policymanager_windows.go. -/
def priority201 : Nat := 201

/-- Modelled from the spec: the engine's well-known ACL identifier stem
(`policyIDPrefix` in the source file policy.go, which is not part of src/).
The source comments fix its value: ACL policies of this engine carry IDs
"starting with the azure-acl- prefix". -/
def policyIDStem : String := "azure-acl"

/-- NPMACLPolSettings: the Windows OS-level ACL rule object (policy.go is not
in src/; the fields are exactly those read and written by
policymanager_windows.go, with Go zero values as defaults). -/
structure NPMACLPolSettings where
  Id : String := ""
  Action : String := ""
  Direction : String := ""
  LocalAddresses : String := ""
  RemoteAddresses : String := ""
  LocalPorts : String := ""
  RemotePorts : String := ""
  Priority : Nat := 0
  Protocols : String := ""
  RuleType : String := ""
deriving DecidableEq, Repr

/-- Modelled from the spec (§3): an ACL rule of a policy — direction, action,
protocols, local/remote address and port selectors, a priority value, and a
scope.  The concrete Go type lives in policy.go, which is not in src/. -/
structure ACLPolicy where
  Direction : String := ""
  Action : String := ""
  Protocols : String := ""
  LocalAddresses : String := ""
  RemoteAddresses : String := ""
  LocalPorts : String := ""
  RemotePorts : String := ""
  Priority : Nat := 0
  RuleType : String := ""
deriving DecidableEq, Repr

/-- Modelled from the spec: `convertToAclSettings` (policy.go, not in src/)
"converts each stored ACL into an OS rule object" (§4.3), stamping it with the
policy's backend identifier, which "is embedded in every rule derived from it"
(§3). -/
def ACLPolicy.convertToAclSettings (acl : ACLPolicy) (aclID : String) : NPMACLPolSettings :=
  { Id := aclID
    Action := acl.Action
    Direction := acl.Direction
    LocalAddresses := acl.LocalAddresses
    RemoteAddresses := acl.RemoteAddresses
    LocalPorts := acl.LocalPorts
    RemotePorts := acl.RemotePorts
    Priority := acl.Priority
    Protocols := acl.Protocols
    RuleType := acl.RuleType }

/-- NPMNetworkPolicy (policy.go is not in src/; these are exactly the fields
policymanager.go and policymanager_windows.go use): unique key, backend rule
identifier, ordered ACL list, and the address → endpoint-ID mapping recording
where the policy is currently applied. -/
structure NPMNetworkPolicy where
  PolicyKey : String
  ACLPolicyID : String := ""
  ACLs : List ACLPolicy := []
  PodEndpoints : List (String × String) := []
deriving DecidableEq, Repr

/-- PolicyManagerCfg from policymanager.go. -/
structure PolicyManagerCfg where
  NodeIP : String := ""
  PolicyMode : String := "IPSet"
  PlaceAzureChainFirst : Bool := false
  MaxBatchedACLsPerPod : Nat := 0
deriving DecidableEq, Repr

/-- The PolicyMap cache of the PolicyManager (the two locks are not modelled:
every embedded operation is one full critical section). -/
structure PolicyManagerState where
  cache : List (String × NPMNetworkPolicy)
deriving DecidableEq, Repr

/-- An hcn.EndpointPolicy: either an ACL-typed policy (whose JSON settings
round-trip to NPMACLPolSettings; `json.Marshal` cannot fail on this plain
record, so marshalling is embedded as the `acl` constructor) or a foreign,
non-ACL policy held opaque. -/
inductive EndpointPolicy where
  | acl (settings : NPMACLPolSettings)
  | other (ty : String) (settings : String)
deriving DecidableEq, Repr

/-- hcn.PolicyEndpointRequest. -/
structure PolicyEndpointRequest where
  Policies : List EndpointPolicy
deriving DecidableEq, Repr

/-- hcn.RequestTypeAdd / hcn.RequestTypeUpdate. -/
inductive RequestType where
  | add
  | update
deriving DecidableEq, Repr

/-- Result of ioShim.Hns.GetEndpointByID: the endpoint with its current policy
list, an hcn.EndpointNotFoundError, or any other error (by message). -/
inductive EndpointResult where
  | found (policies : List EndpointPolicy)
  | notFound
  | err (msg : String)
deriving DecidableEq, Repr

/-- The HNS backend oracle: what GetEndpointByID returns for each endpoint ID,
and whether a given ApplyEndpointPolicy call succeeds. -/
structure Hns where
  getEndpointByID : String → EndpointResult
  applySucceeds : String → RequestType → PolicyEndpointRequest → Bool

/-- One backend call issued by the engine. -/
inductive HnsEvent where
  | getEP (epID : String)
  | applyPolicy (epID : String) (rt : RequestType) (req : PolicyEndpointRequest)
deriving DecidableEq, Repr

/-- The endpoint ID a backend event addressed. -/
def HnsEvent.epIDOf : HnsEvent → String
  | .getEP epID => epID
  | .applyPolicy epID _ _ => epID

/-- Whether an event is an ApplyEndpointPolicy call. -/
def HnsEvent.isApply : HnsEvent → Bool
  | .getEP _ => false
  | .applyPolicy _ _ _ => true

/-- Whether a character list starts with the pattern. -/
def charsLead : List Char → List Char → Bool
  | [], _ => true
  | _ :: _, [] => false
  | a :: pat, b :: rest => a == b && charsLead pat rest

/-- Whether a character list contains the pattern as a contiguous run. -/
def charsHaveSub (pat : List Char) : List Char → Bool
  | [] => pat.isEmpty
  | b :: rest => charsLead pat (b :: rest) || charsHaveSub pat rest

/-- The redundant string check in removePolicyByEndpointID /
applyPoliciesToEndpointID: `strings.Contains(err.Error(), "endpoint was not
found")`, embedded as a substring scan over the character lists (structural
recursion, so concrete runs evaluate). -/
def notFoundMsgIn (msg : String) : Bool :=
  charsHaveSub "endpoint was not found".data msg.data

/-- getEPPolicyReqFromACLSettings (policymanager_windows.go): converts ACL
settings into a PolicyEndpointRequest.  `json.Marshal` of NPMACLPolSettings
cannot fail, so the Go error branch is unreachable and the embedding is total. -/
def getEPPolicyReqFromACLSettings (settings : List NPMACLPolSettings) : PolicyEndpointRequest :=
  { Policies := settings.map EndpointPolicy.acl }

/-- getSettingsFromACL (policymanager_windows.go): converts each ACL of the
policy and fills the final slot of the `len(policy.ACLs)+1`-sized slice with
the readiness-probe ACL (inbound allow from the configured node IP). -/
def getSettingsFromACL (cfg : PolicyManagerCfg) (policy : NPMNetworkPolicy) :
    List NPMACLPolSettings :=
  policy.ACLs.map (fun acl => acl.convertToAclSettings policy.ACLPolicyID) ++
    [{ Id := policy.ACLPolicyID
       Action := ActionTypeAllow
       Direction := DirectionTypeIn
       RemoteAddresses := cfg.NodeIP
       Protocols := ""
       Priority := priority201
       RuleType := RuleTypeSwitch }]

/-- endpointPolicyBuilder (policymanager_windows.go). -/
structure endpointPolicyBuilder where
  aclPolicies : List NPMACLPolSettings
  otherPolicies : List EndpointPolicy
deriving DecidableEq, Repr

/-- newEndpointPolicyBuilder. -/
def newEndpointPolicyBuilder : endpointPolicyBuilder :=
  { aclPolicies := [], otherPolicies := [] }

/-- splitEndpointPolicies: separates ACL-typed policies from all others.  The
Go unmarshal error branch is unreachable in the embedding because ACL-typed
policies carry well-formed settings by construction. -/
def splitEndpointPolicies (endpointPolicies : List EndpointPolicy) : endpointPolicyBuilder :=
  endpointPolicies.foldl
    (fun b p =>
      match p with
      | .acl s => { b with aclPolicies := b.aclPolicies ++ [s] }
      | .other ty s => { b with otherPolicies := b.otherPolicies ++ [.other ty s] })
    newEndpointPolicyBuilder

/-- getHCNPolicyRequest: remaining ACL policies marshalled behind the other
(foreign) policies — "Make sure other policies are applied first". -/
def endpointPolicyBuilder.getHCNPolicyRequest (b : endpointPolicyBuilder) :
    PolicyEndpointRequest :=
  { Policies := b.otherPolicies ++ (getEPPolicyReqFromACLSettings b.aclPolicies).Policies }

/-- The index-collection loop of compareAndRemovePolicies /
resetAllNPMAclPolicies: indices (counting from `i`) of the entries satisfying
`q`, in order. -/
def matchingIndexesFrom (q : NPMACLPolSettings → Bool) (i : Nat) :
    List NPMACLPolSettings → List Nat
  | [] => []
  | acl :: rest =>
    if q acl then i :: matchingIndexesFrom q (i + 1) rest
    else matchingIndexesFrom q (i + 1) rest

/-- The keep-loop of removeACLPolicyAtIndex: retain the entries whose index
(counting from `i`) is not in `indexes`. -/
def keepNotIndexed (indexes : List Nat) (i : Nat) :
    List NPMACLPolSettings → List NPMACLPolSettings
  | [] => []
  | acl :: rest =>
    if indexes.contains i then keepNotIndexed indexes (i + 1) rest
    else acl :: keepNotIndexed indexes (i + 1) rest

/-- removeACLPolicyAtIndex (policymanager_windows.go). -/
def endpointPolicyBuilder.removeACLPolicyAtIndex (b : endpointPolicyBuilder)
    (indexes : List Nat) : endpointPolicyBuilder :=
  if indexes.isEmpty then b
  else { b with aclPolicies := keepNotIndexed indexes 0 b.aclPolicies }

/-- compareAndRemovePolicies (policymanager_windows.go): collects the indices
of every ACL entry whose Id equals `ruleIDToRemove` and removes them all;
returns whether any was found.  `lenOfRulesToRemove` is only decremented for
the discrepancy log and does not bound the removal. -/
def endpointPolicyBuilder.compareAndRemovePolicies (b : endpointPolicyBuilder)
    (ruleIDToRemove : String) (lenOfRulesToRemove : Nat) :
    endpointPolicyBuilder × Bool :=
  let _ := lenOfRulesToRemove
  let toDeleteIndexes := matchingIndexesFrom (fun acl => acl.Id == ruleIDToRemove) 0 b.aclPolicies
  if toDeleteIndexes.isEmpty then (b, false)
  else (b.removeACLPolicyAtIndex toDeleteIndexes, true)

/-- resetAllNPMAclPolicies (policymanager_windows.go): removes every ACL entry
whose Id carries the engine's identifier stem. -/
def endpointPolicyBuilder.resetAllNPMAclPolicies (b : endpointPolicyBuilder) :
    endpointPolicyBuilder × Bool :=
  if b.aclPolicies.isEmpty then (b, false)
  else
    let toDeleteIndexes :=
      matchingIndexesFrom (fun acl => acl.Id.startsWith policyIDStem) 0 b.aclPolicies
    let aclFound := !toDeleteIndexes.isEmpty
    if toDeleteIndexes.length == b.aclPolicies.length then
      ({ b with aclPolicies := [] }, aclFound)
    else (b.removeACLPolicyAtIndex toDeleteIndexes, aclFound)

/-- applyPoliciesToEndpointID (policymanager_windows.go): fetch the endpoint,
treat not-found as a successful no-op, otherwise issue an additive
ApplyEndpointPolicy call.  Returns the Go error value and the backend calls
issued. -/
def applyPoliciesToEndpointID (hns : Hns) (epID : String)
    (policies : PolicyEndpointRequest) : Option String × List HnsEvent :=
  match hns.getEndpointByID epID with
  | .notFound => (none, [.getEP epID])
  | .err msg =>
    if notFoundMsgIn msg then (none, [.getEP epID])
    else (some ("[PolicyManagerWindows] to apply policies while getting the endpoint. endpoint: "
            ++ epID ++ ", err: " ++ msg), [.getEP epID])
  | .found _ =>
    if hns.applySucceeds epID .add policies then
      (none, [.getEP epID, .applyPolicy epID .add policies])
    else
      (some ("failed to apply policies. endpoint: " ++ epID),
        [.getEP epID, .applyPolicy epID .add policies])

/-- removePolicyByEndpointID (policymanager_windows.go): fetch the endpoint
(not-found is a successful no-op), split its policies into ACL vs foreign,
remove either all engine-stem entries (reset) or all entries matching `ruleID`
(targeted; finding none is a successful no-op), and re-apply the remainder
with a replace-type (Update) request. -/
def removePolicyByEndpointID (hns : Hns) (ruleID epID : String)
    (noOfRulesToRemove : Nat) (resetAllACL : Bool) : Option String × List HnsEvent :=
  match hns.getEndpointByID epID with
  | .notFound => (none, [.getEP epID])
  | .err msg =>
    if notFoundMsgIn msg then (none, [.getEP epID])
    else (some ("[PolicyManagerWindows] failed to remove policy while getting the endpoint. policy: "
            ++ ruleID ++ ", endpoint: " ++ epID ++ ", err: " ++ msg), [.getEP epID])
  | .found epPolicies =>
    let epBuilder := splitEndpointPolicies epPolicies
    let (epBuilder1, found) :=
      if resetAllACL then epBuilder.resetAllNPMAclPolicies
      else epBuilder.compareAndRemovePolicies ruleID noOfRulesToRemove
    if !found then (none, [.getEP epID])
    else
      let epPolReq := epBuilder1.getHCNPolicyRequest
      if hns.applySucceeds epID .update epPolReq then
        (none, [.getEP epID, .applyPolicy epID .update epPolReq])
      else
        (some ("unable to apply changes when removing policy. policy: " ++ ruleID
            ++ ", endpoint: " ++ epID),
          [.getEP epID, .applyPolicy epID .update epPolReq])

/-- Error aggregation used by the per-endpoint loops (fmt.Errorf chains; the
message shape follows the Go code but only presence/absence matters to the
claims). -/
def combineErr (site : String) (agg : Option String) (epID msg : String) : Option String :=
  match agg with
  | none => some (site ++ " on " ++ epID ++ " ID Endpoint with err: " ++ msg)
  | some prev =>
    some (site ++ " on " ++ epID ++ " ID Endpoint with err: " ++ msg
        ++ ". previous err: [" ++ prev ++ "]")

/-- Result of the backend addPolicy: the (possibly mutated) policy, the
(possibly mutated) caller-supplied endpointList, the error value, and the
backend calls issued. -/
structure AddPolicyResult where
  policy : NPMNetworkPolicy
  endpointList : List (String × String)
  err : Option String
  events : List HnsEvent
deriving DecidableEq, Repr

/-- Step 1 of addPolicy (policymanager_windows.go): the loop over
policy.PodEndpoints.  For each recorded (epIP, epID): if epIP is absent from
endpointList, keep it; if the observed ID differs, delete the stale entry from
PodEndpoints; if it matches, keep it and delete epIP from endpointList so the
policy is not re-applied there.  The Go loop deletes only the key under
iteration from each map, so it is equivalent to this recursion over a snapshot
of the entries. -/
def scanPodEndpoints :
    List (String × String) → List (String × String) →
    List (String × String) × List (String × String)
  | [], eps => ([], eps)
  | (epIP, epID) :: rest, eps =>
    match alLookup eps epIP with
    | none =>
      let (pods1, eps1) := scanPodEndpoints rest eps
      ((epIP, epID) :: pods1, eps1)
    | some oldEPID =>
      if oldEPID != epID then
        scanPodEndpoints rest eps
      else
        let (pods1, eps1) := scanPodEndpoints rest (alErase eps epIP)
        ((epIP, epID) :: pods1, eps1)

/-- Step 2 of addPolicy: the per-endpoint apply loop.  Failures are aggregated
and the loop continues; on success the endpoint is recorded in PodEndpoints. -/
def applyLoopW (hns : Hns) (req : PolicyEndpointRequest) :
    List (String × String) → List (String × String) → Option String →
    List (String × String) × Option String × List HnsEvent
  | [], pods, agg => (pods, agg, [])
  | (epIP, epID) :: rest, pods, agg =>
    let r1 := applyPoliciesToEndpointID hns epID req
    match r1.1 with
    | some msg =>
      let (pods1, agg1, evs) :=
        applyLoopW hns req rest pods (combineErr "failed to add policy" agg epID msg)
      (pods1, agg1, r1.2 ++ evs)
    | none =>
      let (pods1, agg1, evs) := applyLoopW hns req rest (alInsert pods epIP epID) agg
      (pods1, agg1, r1.2 ++ evs)

/-- addPolicy (policymanager_windows.go): skip/stale-purge pass over
PodEndpoints, then apply the policy's rules to every remaining endpoint. -/
def addPolicy (hns : Hns) (cfg : PolicyManagerCfg) (policy : NPMNetworkPolicy)
    (endpointList : List (String × String)) : AddPolicyResult :=
  if endpointList.isEmpty then
    { policy := policy, endpointList := endpointList, err := none, events := [] }
  else
    let (pods1, eps1) := scanPodEndpoints policy.PodEndpoints endpointList
    if eps1.isEmpty then
      { policy := { policy with PodEndpoints := pods1 }
        endpointList := eps1, err := none, events := [] }
    else
      let rulesToAdd := getSettingsFromACL cfg policy
      let epPolicyRequest := getEPPolicyReqFromACLSettings rulesToAdd
      let (pods2, agg, evs) := applyLoopW hns epPolicyRequest eps1 pods1 none
      { policy := { policy with PodEndpoints := pods2 }
        endpointList := eps1
        err := agg.map (fun e => "[PolicyManagerWindows] " ++ e)
        events := evs }

/-- addPolicies (policymanager_windows.go): apply each policy in turn,
returning on the first error. -/
def addPoliciesW (hns : Hns) (cfg : PolicyManagerCfg) :
    List NPMNetworkPolicy → List (String × String) →
    List NPMNetworkPolicy × List (String × String) × Option String × List HnsEvent
  | [], eps => ([], eps, none, [])
  | policy :: rest, eps =>
    let r := addPolicy hns cfg policy eps
    match r.err with
    | some e => ([r.policy], r.endpointList, some e, r.events)
    | none =>
      let (ps, eps1, err1, evs) := addPoliciesW hns cfg rest r.endpointList
      (r.policy :: ps, eps1, err1, r.events ++ evs)

/-- The validation pass of AddPolicies (policymanager.go lines 130-145):
discard zero-ACL policies, normalize then validate the rest, aborting on the
first validation failure.  NormalizePolicy and ValidatePolicy live in
policy.go, which is not in src/; modelled from the spec ("Normalize and
validate each remaining policy"), which fixes no concrete behaviour, so both
are taken as parameters. -/
def collectAndValidate (normalize : NPMNetworkPolicy → NPMNetworkPolicy)
    (validate : NPMNetworkPolicy → Option String) :
    List NPMNetworkPolicy → Except String (List NPMNetworkPolicy)
  | [] => .ok []
  | policy :: rest =>
    if policy.ACLs.isEmpty then collectAndValidate normalize validate rest
    else
      match validate (normalize policy) with
      | some e => .error ("failed to validate policy: " ++ e)
      | none =>
        (collectAndValidate normalize validate rest).map (fun l => normalize policy :: l)

/-- Result of a manager-level operation: the new manager state, the
caller-visible endpointList, the returned error, and the backend calls issued. -/
structure MgrResult where
  state : PolicyManagerState
  endpointList : List (String × String)
  err : Option String
  events : List HnsEvent
deriving DecidableEq, Repr

/-- Insertion loop of AddPolicies on success: `cache[policy.PolicyKey] = policy`
for each non-empty policy. -/
def insertPolicies (cache : List (String × NPMNetworkPolicy)) :
    List NPMNetworkPolicy → List (String × NPMNetworkPolicy)
  | [] => cache
  | p :: rest => insertPolicies (alInsert cache p.PolicyKey p) rest

/-- AddPolicies (policymanager.go): validation pass, then backend delegation
under the cache lock; the policies are inserted into the cache only on the
no-error path. -/
def AddPolicies (hns : Hns) (cfg : PolicyManagerCfg)
    (normalize : NPMNetworkPolicy → NPMNetworkPolicy)
    (validate : NPMNetworkPolicy → Option String)
    (st : PolicyManagerState) (policies : List NPMNetworkPolicy)
    (endpointList : List (String × String)) : MgrResult :=
  match collectAndValidate normalize validate policies with
  | .error e => { state := st, endpointList := endpointList, err := some e, events := [] }
  | .ok nonEmptyPolicies =>
    if nonEmptyPolicies.isEmpty then
      { state := st, endpointList := endpointList, err := none, events := [] }
    else
      let (ps, eps1, err1, evs) := addPoliciesW hns cfg nonEmptyPolicies endpointList
      match err1 with
      | some e =>
        { state := st, endpointList := eps1
          err := some ("failed to add policy: " ++ e), events := evs }
      | none =>
        { state := { cache := insertPolicies st.cache ps }
          endpointList := eps1, err := none, events := evs }

/-- PolicyExists (policymanager.go). -/
def PolicyExists (st : PolicyManagerState) (policyKey : String) : Bool :=
  (alLookup st.cache policyKey).isSome

/-- The per-endpoint loop of the backend removePolicy: not-found and success
both delete the endpoint from PodEndpoints (removePolicyByEndpointID returns
nil for not-found); other failures are aggregated and the entry is kept. -/
def removeLoop (hns : Hns) (ruleID : String) (num : Nat) :
    List (String × String) → List (String × String) → Option String →
    List (String × String) × Option String × List HnsEvent
  | [], pods, agg => (pods, agg, [])
  | (epIPAddr, epID) :: rest, pods, agg =>
    let r1 := removePolicyByEndpointID hns ruleID epID num false
    match r1.1 with
    | some msg =>
      let (pods1, agg1, evs) :=
        removeLoop hns ruleID num rest pods (combineErr "skipping removing policy" agg epID msg)
      (pods1, agg1, r1.2 ++ evs)
    | none =>
      let (pods1, agg1, evs) := removeLoop hns ruleID num rest (alErase pods epIPAddr) agg
      (pods1, agg1, r1.2 ++ evs)

/-- Result of the backend removePolicy. -/
structure RemovePolicyResult where
  policy : NPMNetworkPolicy
  err : Option String
  events : List HnsEvent
deriving DecidableEq, Repr

/-- removePolicy (policymanager_windows.go): with a nil endpointList the
policy's own PodEndpoints are targeted (no-op when empty); all produced rules
share the ID of rulesToRemove[0]. -/
def removePolicyW (hns : Hns) (cfg : PolicyManagerCfg) (policy : NPMNetworkPolicy)
    (endpointList : Option (List (String × String))) : RemovePolicyResult :=
  let proceed := fun (eps : List (String × String)) =>
    let rulesToRemove := getSettingsFromACL cfg policy
    let numOfRulesToRemove := rulesToRemove.length
    -- rulesToRemove[0]: getSettingsFromACL always produces at least the probe
    -- rule, so the empty branch is unreachable
    let rid := match rulesToRemove with
               | [] => ""
               | r :: _ => r.Id
    let (pods1, agg, evs) := removeLoop hns rid numOfRulesToRemove eps policy.PodEndpoints none
    { policy := { policy with PodEndpoints := pods1 }
      err := agg.map (fun e =>
        "[PolicyManagerWindows] while removing policy " ++ policy.PolicyKey ++ ", " ++ e)
      events := evs : RemovePolicyResult }
  match endpointList with
  | none =>
    if policy.PodEndpoints.isEmpty then
      { policy := policy, err := none, events := [] }
    else proceed policy.PodEndpoints
  | some eps => proceed eps

/-- RemovePolicy (policymanager.go): no-op for an absent or rule-less key;
on a backend error the call returns the error before the cache delete, so the
entry (with its mutated PodEndpoints) stays cached; on success the entry is
deleted. -/
def RemovePolicy (hns : Hns) (cfg : PolicyManagerCfg) (st : PolicyManagerState)
    (policyKey : String) : MgrResult :=
  match alLookup st.cache policyKey with
  | none => { state := st, endpointList := [], err := none, events := [] }
  | some policy =>
    if policy.ACLs.isEmpty then
      { state := st, endpointList := [], err := none, events := [] }
    else
      let r := removePolicyW hns cfg policy none
      match r.err with
      | some e =>
        -- the cache still holds the same (mutated) policy object
        { state := { cache := alInsert st.cache policyKey r.policy }
          endpointList := [], err := some ("failed to remove policy: " ++ e)
          events := r.events }
      | none =>
        { state := { cache := alErase st.cache policyKey }
          endpointList := [], err := none, events := r.events }

/-- RemovePolicyForEndpoints (policymanager.go): identical removal mechanics
restricted to the given endpoints; the cache entry is never deleted (the
cached object's PodEndpoints mutation is retained on every path). -/
def RemovePolicyForEndpoints (hns : Hns) (cfg : PolicyManagerCfg)
    (st : PolicyManagerState) (policyKey : String)
    (endpointList : List (String × String)) : MgrResult :=
  match alLookup st.cache policyKey with
  | none => { state := st, endpointList := endpointList, err := none, events := [] }
  | some policy =>
    if policy.ACLs.isEmpty then
      { state := st, endpointList := endpointList, err := none, events := [] }
    else
      let r := removePolicyW hns cfg policy (some endpointList)
      { state := { cache := alInsert st.cache policyKey r.policy }
        endpointList := endpointList
        err := r.err.map (fun e => "failed to remove policy. err: [" ++ e ++ "]")
        events := r.events }

/-- The per-endpoint loop of the Windows bootup: a RESET-ALL
removePolicyByEndpointID per endpoint, aggregating failures without aborting. -/
def bootupLoop (hns : Hns) :
    List String → Option String → Option String × List HnsEvent
  | [], agg => (agg, [])
  | epID :: rest, agg =>
    let r1 := removePolicyByEndpointID hns "RESET-ALL" epID 0 true
    let agg1 := match r1.1 with
                | some msg => combineErr "skipping resetting policies" agg epID msg
                | none => agg
    let (agg2, evs) := bootupLoop hns rest agg1
    (agg2, r1.2 ++ evs)

/-- Bootup (policymanager.go, with the Windows bootup of
policymanager_windows.go): resets every given endpoint, then fails if no node
IP is configured.  The policy cache is never touched. -/
def Bootup (hns : Hns) (cfg : PolicyManagerCfg) (st : PolicyManagerState)
    (epIDs : List String) : MgrResult :=
  let (agg, evs) := bootupLoop hns epIDs none
  match agg with
  | some e =>
    { state := st, endpointList := []
      err := some ("failed to bootup policy manager: [PolicyManagerWindows] " ++ e)
      events := evs }
  | none =>
    if cfg.NodeIP == "" then
      { state := st, endpointList := []
        err := some "policy manager must have a configured nodeIP in Windows"
        events := evs }
    else { state := st, endpointList := [], err := none, events := evs }

/-- aclBatch (policymanager_windows.go). -/
structure aclBatch where
  rules : List NPMACLPolSettings
  policies : List String
deriving DecidableEq, Repr

/-- The batch-append step of batchPolicies: Go appends to the last slice
element, so the batch list is accumulated in reverse (newest batch first) for
structural recursion and reversed at the end. -/
def addToRevBatches (maxBatched : Nat) (rev : List aclBatch)
    (policyRules : List NPMACLPolSettings) (policyKey : String) : List aclBatch :=
  match rev with
  | cur :: older =>
    if cur.rules.length + policyRules.length ≤ maxBatched then
      { rules := cur.rules ++ policyRules, policies := cur.policies ++ [policyKey] } :: older
    else { rules := policyRules, policies := [policyKey] } :: cur :: older
  | [] => [{ rules := policyRules, policies := [policyKey] }]

/-- The main loop of batchPolicies (policymanager_windows.go): per queued key,
drop it if uncached, skip it when this endpoint already carries the policy,
purge a stale PodEndpoints entry when the recorded ID changed (writing the
mutated policy back through the cached pointer), and add the policy's whole
rule set to the batches. -/
def batchLoop (cfg : PolicyManagerCfg) (epToModifyID epToModifyIP : String) :
    List String → List (String × NPMNetworkPolicy) → List String → List aclBatch →
    List (String × NPMNetworkPolicy) × List String × List aclBatch
  | [], cache, keys, rev => (cache, keys, rev)
  | policyKey :: rest, cache, keys, rev =>
    match alLookup cache policyKey with
    | none => batchLoop cfg epToModifyID epToModifyIP rest cache (keys.erase policyKey) rev
    | some policy =>
      match alLookup policy.PodEndpoints epToModifyIP with
      | some epID =>
        if epID == epToModifyID then
          batchLoop cfg epToModifyID epToModifyIP rest cache (keys.erase policyKey) rev
        else
          let policy1 := { policy with PodEndpoints := alErase policy.PodEndpoints epToModifyIP }
          let cache1 := alInsert cache policyKey policy1
          let policyRules := getSettingsFromACL cfg policy1
          batchLoop cfg epToModifyID epToModifyIP rest cache1 keys
            (addToRevBatches cfg.MaxBatchedACLsPerPod rev policyRules policyKey)
      | none =>
        let policyRules := getSettingsFromACL cfg policy
        batchLoop cfg epToModifyID epToModifyIP rest cache keys
          (addToRevBatches cfg.MaxBatchedACLsPerPod rev policyRules policyKey)

/-- batchPolicies (policymanager_windows.go): groups the queued policies' rule
sets into batches bounded by MaxBatchedACLsPerPod, never splitting one
policy's rules. -/
def batchPolicies (cfg : PolicyManagerCfg) (st : PolicyManagerState)
    (policyKeys : List String) (epToModifyID epToModifyIP : String) :
    PolicyManagerState × List String × List aclBatch :=
  let (cache1, keys1, rev) :=
    batchLoop cfg epToModifyID epToModifyIP policyKeys st.cache policyKeys []
  ({ cache := cache1 }, keys1, rev.reverse)

/-- The complete rule set of a cached policy, as batchPolicies computes it
(PodEndpoints edits during the loop do not change it). -/
def ruleSetOf (cfg : PolicyManagerCfg) (st : PolicyManagerState) (policyKey : String) :
    List NPMACLPolSettings :=
  match alLookup st.cache policyKey with
  | some p => getSettingsFromACL cfg p
  | none => []

/-- The rule set of the first (batch-opening) policy of a batch. -/
def firstRules (ruleOf : String → List NPMACLPolSettings) (b : aclBatch) :
    List NPMACLPolSettings :=
  match b.policies with
  | [] => []
  | k :: _ => ruleOf k

/-- A well-formed batch: it holds at least one whole policy, and its rules are
exactly the concatenation of its policies' complete rule sets. -/
def batchWF (ruleOf : String → List NPMACLPolSettings) (b : aclBatch) : Prop :=
  b.policies ≠ [] ∧ b.rules = (b.policies.map ruleOf).flatten

/-- Capacity bound of batchPolicies: a policy is appended to an existing batch
only when the result stays within the maximum, so only a batch consisting of
its single opening policy can exceed MaxBatchedACLsPerPod. -/
def batchCap (maxBatched : Nat) (b : aclBatch) : Prop :=
  b.policies.length ≤ 1 ∨ b.rules.length ≤ maxBatched

/-- Invariant of the reversed batch accumulator of batchLoop: every batch is
well formed and within capacity (except via its single opening policy), and a
batch was only opened when appending its first policy to the previous (older)
batch would have exceeded the maximum. -/
def revBatchesInv (maxBatched : Nat) (ruleOf : String → List NPMACLPolSettings)
    (rev : List aclBatch) : Prop :=
  (∀ b ∈ rev, batchWF ruleOf b ∧ batchCap maxBatched b) ∧
  List.Chain' (fun bNew bOld =>
    maxBatched < bOld.rules.length + (firstRules ruleOf bNew).length) rev

/-- The PolicyEndpointRequest addPolicy applies for a policy: its rule set
(user ACLs plus probe rule) marshalled into endpoint policies. -/
def reqOf (cfg : PolicyManagerCfg) (policy : NPMNetworkPolicy) : PolicyEndpointRequest :=
  getEPPolicyReqFromACLSettings (getSettingsFromACL cfg policy)

/-- Whether applyPoliciesToEndpointID reports success for an endpoint (true
also when the endpoint is not found, which the code treats as a successful
no-op). -/
def applyReportedOK (hns : Hns) (req : PolicyEndpointRequest) (epID : String) : Bool :=
  ((applyPoliciesToEndpointID hns epID req).1).isNone

/-- Whether a GetEndpointByID result is an endpoint-not-found response (either
the typed hcn.EndpointNotFoundError or an error whose message carries the
well-known text). -/
def isNotFoundResp : EndpointResult → Bool
  | .found _ => false
  | .notFound => true
  | .err msg => notFoundMsgIn msg

/-- Fixture: a single inbound block ACL. -/
def aclIn6 : ACLPolicy :=
  { Direction := DirectionTypeIn, Action := ActionTypeBlock, Protocols := "6" }

/-- Fixture: a one-ACL policy with no recorded endpoints. -/
def polXA : NPMNetworkPolicy :=
  { PolicyKey := "x/a", ACLPolicyID := "azure-acl-x-a", ACLs := [aclIn6] }

/-- Fixture: the same policy already applied to endpoint e1. -/
def polXAEp : NPMNetworkPolicy :=
  { polXA with PodEndpoints := [("10.0.0.1", "e1")] }

/-- Fixture: the same policy with one current and one stale recorded endpoint. -/
def polXAStale : NPMNetworkPolicy :=
  { polXA with PodEndpoints := [("10.0.0.1", "e1"), ("10.0.0.2", "eOld")] }

/-- Fixture: a configuration with a node IP. -/
def cfgNode : PolicyManagerCfg := { NodeIP := "6.7.8.9" }

/-- Fixture: the empty manager state. -/
def stEmpty : PolicyManagerState := { cache := [] }

/-- Fixture: a state caching polXA. -/
def stXA : PolicyManagerState := { cache := [("x/a", polXA)] }

/-- Fixture: a state caching polXAEp. -/
def stXAEp : PolicyManagerState := { cache := [("x/a", polXAEp)] }

/-- Fixture oracle: every endpoint exists with no policies; every apply
succeeds. -/
def hnsAllFound : Hns :=
  { getEndpointByID := fun _ => .found [], applySucceeds := fun _ _ _ => true }

/-- Fixture oracle: every endpoint exists; every apply fails. -/
def hnsApplyFail : Hns :=
  { getEndpointByID := fun _ => .found [], applySucceeds := fun _ _ _ => false }

/-- Fixture oracle: no endpoint is ever found. -/
def hnsAllNotFound : Hns :=
  { getEndpointByID := fun _ => .notFound, applySucceeds := fun _ _ _ => false }

/-- Fixture oracle: GetEndpointByID fails with a non-not-found error. -/
def hnsGetErr : Hns :=
  { getEndpointByID := fun _ => .err "boom", applySucceeds := fun _ _ _ => true }

/-- Fixture oracle: endpoints exist; applying to endpoint b fails, all others
succeed. -/
def hnsSkipB : Hns :=
  { getEndpointByID := fun _ => .found [], applySucceeds := fun epID _ _ => epID != "b" }

/-- Fixture: two OS ACL entries of one NPM policy and one of another. -/
def setXA6 : NPMACLPolSettings := { Id := "azure-acl-x-a", Protocols := "6" }

/-- Fixture: second OS ACL entry sharing the ID of setXA6. -/
def setXA17 : NPMACLPolSettings := { Id := "azure-acl-x-a", Protocols := "17" }

/-- Fixture: an OS ACL entry of a different NPM policy. -/
def setXB : NPMACLPolSettings := { Id := "azure-acl-x-b", Protocols := "6" }

/-- Fixture oracle: endpoint e1 carries two ACL entries with the same NPM ID
(and one foreign policy); every apply succeeds. -/
def hnsTwoMatching : Hns :=
  { getEndpointByID := fun epID =>
      if epID == "e1" then .found [.other "L4" "opaque", .acl setXA6, .acl setXA17]
      else .notFound
    applySucceeds := fun _ _ _ => true }

/-- Fixture oracle: endpoint e1 carries one matching ACL entry, one entry of a
different policy, and a foreign policy; every apply succeeds. -/
def hnsOneMatching : Hns :=
  { getEndpointByID := fun epID =>
      if epID == "e1" then .found [.acl setXA6, .other "L4" "opaque", .acl setXB]
      else .notFound
    applySucceeds := fun _ _ _ => true }

/-- Fixture validator: rejects the policy with key x/a. -/
def validateRejectXA : NPMNetworkPolicy → Option String :=
  fun p => if p.PolicyKey == "x/a" then some "malformed" else none

/-- Fixture: three endpoints a, b, c for the partial-failure scenario. -/
def epsABC : List (String × String) :=
  [("10.0.0.1", "a"), ("10.0.0.2", "b"), ("10.0.0.3", "c")]

/-- Fixture: one already-carried endpoint and one reused address with a new
endpoint ID. -/
def epsC8 : List (String × String) := [("10.0.0.1", "e1"), ("10.0.0.2", "eNew")]

/-- Fixture: one already-carried endpoint and one new endpoint. -/
def epsC10 : List (String × String) := [("10.0.0.1", "e1"), ("10.0.0.2", "e2")]

/-- The injected readiness-probe rule for a policy under a configuration. -/
def probeRule (cfg : PolicyManagerCfg) (policy : NPMNetworkPolicy) : NPMACLPolSettings :=
  { Id := policy.ACLPolicyID
    Action := ActionTypeAllow
    Direction := DirectionTypeIn
    RemoteAddresses := cfg.NodeIP
    Protocols := ""
    Priority := priority201
    RuleType := RuleTypeSwitch }

/-- Fixture: n ACLs distinguished by priority. -/
def mkPrioACLs (n : Nat) : List ACLPolicy :=
  (List.range n).map (fun i => { Priority := i })

/-- Fixture: a policy producing 10 OS rules (9 user ACLs plus the probe). -/
def polP1 : NPMNetworkPolicy :=
  { PolicyKey := "p1", ACLPolicyID := "azure-acl-p1", ACLs := mkPrioACLs 9 }

/-- Fixture: a policy producing 25 OS rules (24 user ACLs plus the probe). -/
def polP2 : NPMNetworkPolicy :=
  { PolicyKey := "p2", ACLPolicyID := "azure-acl-p2", ACLs := mkPrioACLs 24 }

/-- Fixture: a state caching polP1 and polP2. -/
def stBatch : PolicyManagerState := { cache := [("p1", polP1), ("p2", polP2)] }

/-- Fixture: a configuration limiting a batch to 20 rules per endpoint. -/
def cfgBatch : PolicyManagerCfg := { NodeIP := "1.1.1.1", MaxBatchedACLsPerPod := 20 }

/-- Fixture: the batches computed for polP1 and polP2 under cfgBatch. -/
def batchesEx : List aclBatch :=
  (batchPolicies cfgBatch stBatch ["p1", "p2"] "eX" "ipX").2.2

/-- Fixture: the first computed batch. -/
def batchEx1 : aclBatch := batchesEx.headD { rules := [], policies := [] }

/-- Fixture: the second computed batch (the one whose single policy alone
exceeds the maximum). -/
def batchEx2 : aclBatch := (batchesEx.drop 1).headD { rules := [], policies := [] }

theorem alLookup_nil {β : Type} (k : String) : alLookup ([] : List (String × β)) k = none := rfl

theorem alLookup_cons {β : Type} (a k : String) (v : β) (m : List (String × β)) :
    alLookup ((a, v) :: m) k = if a = k then some v else alLookup m k := by
  simp only [alLookup, List.find?_cons]
  cases hb : (a == k)
  · have hne : ¬a = k := by simpa using hb
    simp [hb, hne]
  · have heq : a = k := by simpa using hb
    simp [hb, heq]

theorem alErase_nil {β : Type} (k : String) : alErase ([] : List (String × β)) k = [] := rfl

theorem alErase_cons {β : Type} (a k : String) (v : β) (m : List (String × β)) :
    alErase ((a, v) :: m) k = if a = k then alErase m k else (a, v) :: alErase m k := by
  simp only [alErase, List.filter_cons]
  cases hb : (a != k)
  · have heq : a = k := by simpa using hb
    simp [hb, heq]
  · have hne : ¬a = k := by simpa using hb
    simp [hb, hne]

theorem alLookup_alErase {β : Type} (m : List (String × β)) (k k' : String) :
    alLookup (alErase m k) k' = if k = k' then none else alLookup m k' := by
  induction m with
  | nil => by_cases h : k = k' <;> simp [alErase_nil, alLookup_nil, h]
  | cons p rest ih =>
    obtain ⟨a, v⟩ := p
    rw [alErase_cons]
    by_cases hak : a = k
    · rw [if_pos hak, ih, alLookup_cons]
      by_cases h : k = k'
      · simp [h]
      · have hak' : ¬a = k' := fun hc => h (hak ▸ hc)
        simp [h, hak']
    · rw [if_neg hak, alLookup_cons, ih, alLookup_cons]
      by_cases h : k = k'
      · have hak' : ¬a = k' := fun hc => hak (h ▸ hc)
        simp [h, hak']
      · simp [h]

theorem alLookup_append {β : Type} (m1 m2 : List (String × β)) (k : String) :
    alLookup (m1 ++ m2) k = ((alLookup m1 k).or (alLookup m2 k)) := by
  induction m1 with
  | nil => simp [alLookup_nil]
  | cons p rest ih =>
    obtain ⟨a, v⟩ := p
    rw [List.cons_append, alLookup_cons, alLookup_cons]
    by_cases h : a = k <;> simp [h, ih]

theorem alLookup_alInsert {β : Type} (m : List (String × β)) (k k' : String) (v : β) :
    alLookup (alInsert m k v) k' = if k = k' then some v else alLookup m k' := by
  rw [alInsert, alLookup_append, alLookup_alErase, alLookup_cons]
  by_cases h : k = k' <;> simp [h, alLookup_nil]

theorem nodupKeys_nil {β : Type} : nodupKeys ([] : List (String × β)) := by
  simp [nodupKeys]

theorem nodupKeys_cons_iff {β : Type} (a : String) (v : β) (m : List (String × β)) :
    nodupKeys ((a, v) :: m) ↔ (∀ w, (a, w) ∉ m) ∧ nodupKeys m := by
  simp only [nodupKeys, List.map_cons, List.nodup_cons]
  constructor
  · rintro ⟨h1, h2⟩
    refine ⟨fun w hw => h1 ?_, h2⟩
    exact List.mem_map.mpr ⟨(a, w), hw, rfl⟩
  · rintro ⟨h1, h2⟩
    refine ⟨fun hmem => ?_, h2⟩
    obtain ⟨⟨x, w⟩, hxw, hx⟩ := List.mem_map.mp hmem
    exact h1 w (by simpa [← hx] using hxw)

theorem nodupKeys_alErase {β : Type} (m : List (String × β)) (k : String)
    (h : nodupKeys m) : nodupKeys (alErase m k) := by
  induction m with
  | nil => simpa [alErase_nil] using h
  | cons p rest ih =>
    obtain ⟨a, v⟩ := p
    rw [alErase_cons]
    rw [nodupKeys_cons_iff] at h
    by_cases hak : a = k
    · rw [if_pos hak]; exact ih h.2
    · rw [if_neg hak, nodupKeys_cons_iff]
      refine ⟨fun w hw => h.1 w ?_, ih h.2⟩
      exact List.mem_of_mem_filter hw

theorem not_mem_alErase_self {β : Type} (m : List (String × β)) (k : String) (v : β) :
    (k, v) ∉ alErase m k := by
  intro hmem
  have := List.of_mem_filter hmem
  simp at this

theorem nodupKeys_alInsert {β : Type} (m : List (String × β)) (k : String) (v : β)
    (h : nodupKeys m) : nodupKeys (alInsert m k v) := by
  rw [alInsert]
  induction m with
  | nil => simp [alErase_nil, nodupKeys, List.Nodup]
  | cons p rest ih =>
    obtain ⟨a, v'⟩ := p
    rw [nodupKeys_cons_iff] at h
    rw [alErase_cons]
    by_cases hak : a = k
    · rw [if_pos hak]; exact ih h.2
    · rw [if_neg hak, List.cons_append, nodupKeys_cons_iff]
      refine ⟨fun w hw => ?_, ih h.2⟩
      rcases List.mem_append.mp hw with h1 | h1
      · exact h.1 w (List.mem_of_mem_filter h1)
      · simp at h1
        exact hak h1.1.symm.symm

theorem alLookup_eq_some_of_mem {β : Type} (m : List (String × β)) (k : String) (v : β)
    (hnd : nodupKeys m) (hmem : (k, v) ∈ m) : alLookup m k = some v := by
  induction m with
  | nil => cases hmem
  | cons p rest ih =>
    obtain ⟨a, w⟩ := p
    rw [nodupKeys_cons_iff] at hnd
    rw [alLookup_cons]
    rcases List.mem_cons.mp hmem with h1 | h1
    · have h2 : a = k := congrArg Prod.fst h1.symm
      have h3 : w = v := congrArg Prod.snd h1.symm
      simp [h2, h3]
    · by_cases hak : a = k
      · exact absurd (hak ▸ h1) (hnd.1 v)
      · rw [if_neg hak]; exact ih hnd.2 h1

theorem mem_of_alLookup_eq_some {β : Type} (m : List (String × β)) (k : String) (v : β)
    (h : alLookup m k = some v) : (k, v) ∈ m := by
  induction m with
  | nil => simp [alLookup_nil] at h
  | cons p rest ih =>
    obtain ⟨a, w⟩ := p
    rw [alLookup_cons] at h
    by_cases hak : a = k
    · rw [if_pos hak] at h
      exact hak ▸ (Option.some.inj h) ▸ List.mem_cons_self _ _
    · exact List.mem_cons_of_mem _ (ih (by rwa [if_neg hak] at h))

theorem alLookup_eq_none_of_forall_not_mem {β : Type} (m : List (String × β)) (k : String)
    (h : ∀ v, (k, v) ∉ m) : alLookup m k = none := by
  cases hl : alLookup m k with
  | none => rfl
  | some v => exact absurd (mem_of_alLookup_eq_some m k v hl) (h v)

theorem scanPodEndpoints_nil (eps : List (String × String)) :
    scanPodEndpoints [] eps = ([], eps) := rfl

theorem scanPodEndpoints_cons_none (ip id : String) (rest eps : List (String × String))
    (h : alLookup eps ip = none) :
    scanPodEndpoints ((ip, id) :: rest) eps =
      ((ip, id) :: (scanPodEndpoints rest eps).1, (scanPodEndpoints rest eps).2) := by
  simp [scanPodEndpoints, h]

theorem scanPodEndpoints_cons_stale (ip id oldID : String) (rest eps : List (String × String))
    (h : alLookup eps ip = some oldID) (hne : oldID ≠ id) :
    scanPodEndpoints ((ip, id) :: rest) eps = scanPodEndpoints rest eps := by
  simp [scanPodEndpoints, h, hne]

theorem scanPodEndpoints_cons_same (ip id : String) (rest eps : List (String × String))
    (h : alLookup eps ip = some id) :
    scanPodEndpoints ((ip, id) :: rest) eps =
      ((ip, id) :: (scanPodEndpoints rest (alErase eps ip)).1,
        (scanPodEndpoints rest (alErase eps ip)).2) := by
  simp [scanPodEndpoints, h]

theorem mem_scanPodEndpoints_pods (pods eps : List (String × String))
    (p : String × String) (hmem : p ∈ (scanPodEndpoints pods eps).1) : p ∈ pods := by
  induction pods generalizing eps with
  | nil => rw [scanPodEndpoints_nil] at hmem; exact hmem
  | cons q rest ih =>
    obtain ⟨ip, id⟩ := q
    cases hl : alLookup eps ip with
    | none =>
      rw [scanPodEndpoints_cons_none ip id rest eps hl] at hmem
      rcases List.mem_cons.mp hmem with h1 | h1
      · exact h1 ▸ List.mem_cons_self _ _
      · exact List.mem_cons_of_mem _ (ih eps h1)
    | some oldID =>
      by_cases hne : oldID = id
      · subst hne
        rw [scanPodEndpoints_cons_same ip oldID rest eps hl] at hmem
        rcases List.mem_cons.mp hmem with h1 | h1
        · exact h1 ▸ List.mem_cons_self _ _
        · exact List.mem_cons_of_mem _ (ih (alErase eps ip) h1)
      · rw [scanPodEndpoints_cons_stale ip id oldID rest eps hl hne] at hmem
        exact List.mem_cons_of_mem _ (ih eps hmem)

theorem mem_scanPodEndpoints_eps (pods eps : List (String × String))
    (p : String × String) (hmem : p ∈ (scanPodEndpoints pods eps).2) : p ∈ eps := by
  induction pods generalizing eps with
  | nil => rw [scanPodEndpoints_nil] at hmem; exact hmem
  | cons q rest ih =>
    obtain ⟨ip, id⟩ := q
    cases hl : alLookup eps ip with
    | none =>
      rw [scanPodEndpoints_cons_none ip id rest eps hl] at hmem
      exact ih eps hmem
    | some oldID =>
      by_cases hne : oldID = id
      · subst hne
        rw [scanPodEndpoints_cons_same ip oldID rest eps hl] at hmem
        exact List.mem_of_mem_filter (ih (alErase eps ip) hmem)
      · rw [scanPodEndpoints_cons_stale ip id oldID rest eps hl hne] at hmem
        exact ih eps hmem

theorem nodupKeys_scanPodEndpoints_pods (pods eps : List (String × String))
    (hnd : nodupKeys pods) : nodupKeys (scanPodEndpoints pods eps).1 := by
  induction pods generalizing eps with
  | nil => simp [scanPodEndpoints_nil, nodupKeys_nil]
  | cons q rest ih =>
    obtain ⟨ip, id⟩ := q
    rw [nodupKeys_cons_iff] at hnd
    cases hl : alLookup eps ip with
    | none =>
      rw [scanPodEndpoints_cons_none ip id rest eps hl, nodupKeys_cons_iff]
      exact ⟨fun w hw => hnd.1 w (mem_scanPodEndpoints_pods rest eps (ip, w) hw), ih eps hnd.2⟩
    | some oldID =>
      by_cases hne : oldID = id
      · subst hne
        rw [scanPodEndpoints_cons_same ip oldID rest eps hl, nodupKeys_cons_iff]
        exact ⟨fun w hw => hnd.1 w (mem_scanPodEndpoints_pods rest (alErase eps ip) (ip, w) hw),
          ih (alErase eps ip) hnd.2⟩
      · rw [scanPodEndpoints_cons_stale ip id oldID rest eps hl hne]
        exact ih eps hnd.2

theorem nodupKeys_scanPodEndpoints_eps (pods eps : List (String × String))
    (hnd : nodupKeys eps) : nodupKeys (scanPodEndpoints pods eps).2 := by
  induction pods generalizing eps with
  | nil => simpa [scanPodEndpoints_nil] using hnd
  | cons q rest ih =>
    obtain ⟨ip, id⟩ := q
    cases hl : alLookup eps ip with
    | none => rw [scanPodEndpoints_cons_none ip id rest eps hl]; exact ih eps hnd
    | some oldID =>
      by_cases hne : oldID = id
      · subst hne
        rw [scanPodEndpoints_cons_same ip oldID rest eps hl]
        exact ih (alErase eps ip) (nodupKeys_alErase eps ip hnd)
      · rw [scanPodEndpoints_cons_stale ip id oldID rest eps hl hne]
        exact ih eps hnd

theorem scanPodEndpoints_pods_lookup (pods eps : List (String × String))
    (hnd : nodupKeys pods) (ip id : String) :
    alLookup (scanPodEndpoints pods eps).1 ip = some id ↔
      (alLookup pods ip = some id ∧
        (alLookup eps ip = none ∨ alLookup eps ip = some id)) := by
  induction pods generalizing eps with
  | nil =>
    rw [scanPodEndpoints_nil]
    simp [alLookup_nil]
  | cons q rest ih =>
    obtain ⟨ip0, id0⟩ := q
    rw [nodupKeys_cons_iff] at hnd
    have hrest0 : alLookup rest ip0 = none :=
      alLookup_eq_none_of_forall_not_mem rest ip0 hnd.1
    cases hl : alLookup eps ip0 with
    | none =>
      rw [scanPodEndpoints_cons_none ip0 id0 rest eps hl, alLookup_cons, alLookup_cons]
      by_cases hip : ip0 = ip
      · subst hip
        simp [hl]
      · rw [if_neg hip, if_neg hip]
        exact ih eps hnd.2
    | some oldID =>
      by_cases hne : oldID = id0
      · subst hne
        rw [scanPodEndpoints_cons_same ip0 oldID rest eps hl, alLookup_cons, alLookup_cons]
        by_cases hip : ip0 = ip
        · subst hip
          simp only [if_pos rfl, hl]
          constructor
          · intro h
            exact ⟨h, Or.inr h⟩
          · intro h
            exact h.1
        · rw [if_neg hip, if_neg hip, ih (alErase eps ip0) hnd.2,
            alLookup_alErase eps ip0 ip, if_neg hip]
      · rw [scanPodEndpoints_cons_stale ip0 id0 oldID rest eps hl hne, ih eps hnd.2,
          alLookup_cons]
        by_cases hip : ip0 = ip
        · subst hip
          rw [if_pos rfl, hrest0, hl]
          constructor
          · intro h
            exact absurd h.1 (by simp)
          · rintro ⟨h1, h2 | h2⟩
            · exact absurd h2 (by simp)
            · rw [Option.some.injEq] at h1 h2
              exact absurd (h2.trans h1.symm) hne
        · rw [if_neg hip]

theorem scanPodEndpoints_eps_lookup (pods eps : List (String × String))
    (hnd : nodupKeys pods) (ip id : String) :
    alLookup (scanPodEndpoints pods eps).2 ip = some id ↔
      (alLookup eps ip = some id ∧ ¬ alLookup pods ip = some id) := by
  induction pods generalizing eps with
  | nil =>
    rw [scanPodEndpoints_nil]
    simp [alLookup_nil]
  | cons q rest ih =>
    obtain ⟨ip0, id0⟩ := q
    rw [nodupKeys_cons_iff] at hnd
    have hrest0 : alLookup rest ip0 = none :=
      alLookup_eq_none_of_forall_not_mem rest ip0 hnd.1
    cases hl : alLookup eps ip0 with
    | none =>
      rw [scanPodEndpoints_cons_none ip0 id0 rest eps hl, ih eps hnd.2, alLookup_cons]
      by_cases hip : ip0 = ip
      · subst hip
        rw [if_pos rfl, hl]
        simp
      · rw [if_neg hip]
    | some oldID =>
      by_cases hne : oldID = id0
      · subst hne
        rw [scanPodEndpoints_cons_same ip0 oldID rest eps hl, ih (alErase eps ip0) hnd.2,
          alLookup_alErase eps ip0 ip, alLookup_cons]
        by_cases hip : ip0 = ip
        · subst hip
          rw [if_pos rfl, if_pos rfl, hl]
          simp
        · rw [if_neg hip, if_neg hip]
      · rw [scanPodEndpoints_cons_stale ip0 id0 oldID rest eps hl hne, ih eps hnd.2,
          alLookup_cons]
        by_cases hip : ip0 = ip
        · subst hip
          rw [if_pos rfl, hrest0, hl]
          constructor
          · rintro ⟨h1, _⟩
            rw [Option.some.injEq] at h1
            subst h1
            refine ⟨rfl, fun hc => ?_⟩
            rw [Option.some.injEq] at hc
            exact hne hc.symm
          · rintro ⟨h1, _⟩
            exact ⟨h1, by simp⟩
        · rw [if_neg hip]

theorem applyLoopW_nil (hns : Hns) (req : PolicyEndpointRequest)
    (pods : List (String × String)) (agg : Option String) :
    applyLoopW hns req [] pods agg = (pods, agg, []) := rfl

theorem applyLoopW_cons_fail (hns : Hns) (req : PolicyEndpointRequest)
    (ip id : String) (rest pods : List (String × String)) (agg : Option String)
    (msg : String) (h : (applyPoliciesToEndpointID hns id req).1 = some msg) :
    applyLoopW hns req ((ip, id) :: rest) pods agg =
      ((applyLoopW hns req rest pods
          (combineErr "failed to add policy" agg id msg)).1,
        (applyLoopW hns req rest pods
          (combineErr "failed to add policy" agg id msg)).2.1,
        (applyPoliciesToEndpointID hns id req).2 ++
          (applyLoopW hns req rest pods
            (combineErr "failed to add policy" agg id msg)).2.2) := by
  simp [applyLoopW, h]

theorem applyLoopW_cons_ok (hns : Hns) (req : PolicyEndpointRequest)
    (ip id : String) (rest pods : List (String × String)) (agg : Option String)
    (h : (applyPoliciesToEndpointID hns id req).1 = none) :
    applyLoopW hns req ((ip, id) :: rest) pods agg =
      ((applyLoopW hns req rest (alInsert pods ip id) agg).1,
        (applyLoopW hns req rest (alInsert pods ip id) agg).2.1,
        (applyPoliciesToEndpointID hns id req).2 ++
          (applyLoopW hns req rest (alInsert pods ip id) agg).2.2) := by
  simp [applyLoopW, h]

theorem applyLoopW_pods_lookup (hns : Hns) (req : PolicyEndpointRequest)
    (entries pods : List (String × String)) (agg : Option String)
    (hnd : nodupKeys entries) (ip : String) :
    alLookup (applyLoopW hns req entries pods agg).1 ip =
      match alLookup entries ip with
      | some id => if applyReportedOK hns req id then some id else alLookup pods ip
      | none => alLookup pods ip := by
  induction entries generalizing pods agg with
  | nil => simp [applyLoopW_nil, alLookup_nil]
  | cons q rest ih =>
    obtain ⟨ip0, id0⟩ := q
    rw [nodupKeys_cons_iff] at hnd
    have hrest0 : alLookup rest ip0 = none :=
      alLookup_eq_none_of_forall_not_mem rest ip0 hnd.1
    cases h1 : (applyPoliciesToEndpointID hns id0 req).1 with
    | some msg =>
      rw [applyLoopW_cons_fail hns req ip0 id0 rest pods agg msg h1]
      have hok : applyReportedOK hns req id0 = false := by
        simp [applyReportedOK, h1]
      rw [ih _ _ hnd.2, alLookup_cons]
      by_cases hip : ip0 = ip
      · subst hip
        rw [if_pos rfl, hrest0]
        simp [hok]
      · rw [if_neg hip]
    | none =>
      rw [applyLoopW_cons_ok hns req ip0 id0 rest pods agg h1]
      have hok : applyReportedOK hns req id0 = true := by
        simp [applyReportedOK, h1]
      rw [ih _ _ hnd.2, alLookup_cons]
      by_cases hip : ip0 = ip
      · subst hip
        rw [if_pos rfl, hrest0]
        simp [hok, alLookup_alInsert]
      · rw [if_neg hip, alLookup_alInsert, if_neg hip]

theorem applyLoopW_events (hns : Hns) (req : PolicyEndpointRequest)
    (entries pods : List (String × String)) (agg : Option String) :
    (applyLoopW hns req entries pods agg).2.2 =
      (entries.map (fun e => (applyPoliciesToEndpointID hns e.2 req).2)).flatten := by
  induction entries generalizing pods agg with
  | nil => simp [applyLoopW_nil]
  | cons q rest ih =>
    obtain ⟨ip0, id0⟩ := q
    cases h1 : (applyPoliciesToEndpointID hns id0 req).1 with
    | some msg =>
      rw [applyLoopW_cons_fail hns req ip0 id0 rest pods agg msg h1]
      simp [ih]
    | none =>
      rw [applyLoopW_cons_ok hns req ip0 id0 rest pods agg h1]
      simp [ih]

theorem epIDOf_applyPoliciesToEndpointID (hns : Hns) (epID : String)
    (req : PolicyEndpointRequest) (ev : HnsEvent)
    (hmem : ev ∈ (applyPoliciesToEndpointID hns epID req).2) : ev.epIDOf = epID := by
  unfold applyPoliciesToEndpointID at hmem
  cases hres : hns.getEndpointByID epID with
  | found pols =>
    rw [hres] at hmem
    by_cases hap : hns.applySucceeds epID RequestType.add req = true
    · simp [hap] at hmem
      rcases hmem with h | h <;> simp [h, HnsEvent.epIDOf]
    · simp [hap] at hmem
      rcases hmem with h | h <;> simp [h, HnsEvent.epIDOf]
  | notFound =>
    rw [hres] at hmem
    simp at hmem
    simp [hmem, HnsEvent.epIDOf]
  | err msg =>
    rw [hres] at hmem
    by_cases hnf : notFoundMsgIn msg = true <;> simp [hnf] at hmem <;>
      simp [hmem, HnsEvent.epIDOf]


theorem addPolicy_eq (hns : Hns) (cfg : PolicyManagerCfg) (policy : NPMNetworkPolicy)
    (eps : List (String × String)) :
    addPolicy hns cfg policy eps =
      if eps.isEmpty then
        { policy := policy, endpointList := eps, err := none, events := [] }
      else if (scanPodEndpoints policy.PodEndpoints eps).2.isEmpty then
        { policy := { policy with PodEndpoints := (scanPodEndpoints policy.PodEndpoints eps).1 }
          endpointList := (scanPodEndpoints policy.PodEndpoints eps).2
          err := none, events := [] }
      else
        { policy := { policy with PodEndpoints :=
            (applyLoopW hns (reqOf cfg policy) (scanPodEndpoints policy.PodEndpoints eps).2
              (scanPodEndpoints policy.PodEndpoints eps).1 none).1 }
          endpointList := (scanPodEndpoints policy.PodEndpoints eps).2
          err := ((applyLoopW hns (reqOf cfg policy) (scanPodEndpoints policy.PodEndpoints eps).2
              (scanPodEndpoints policy.PodEndpoints eps).1 none).2.1).map
                (fun e => "[PolicyManagerWindows] " ++ e)
          events := (applyLoopW hns (reqOf cfg policy) (scanPodEndpoints policy.PodEndpoints eps).2
              (scanPodEndpoints policy.PodEndpoints eps).1 none).2.2 } :=
  rfl

theorem scanPodEndpoints_eps_lookup_none (pods eps : List (String × String))
    (hnd : nodupKeys pods) (h1 : (scanPodEndpoints pods eps).2.isEmpty = true)
    (ip id : String) (hl : alLookup eps ip = some id)
    (hnp : ¬ alLookup pods ip = some id) : False := by
  have h2 : alLookup (scanPodEndpoints pods eps).2 ip = some id :=
    (scanPodEndpoints_eps_lookup pods eps hnd ip id).mpr ⟨hl, hnp⟩
  rw [List.isEmpty_iff] at h1
  rw [h1, alLookup_nil] at h2
  cases h2

theorem addPolicy_pods_lookup (hns : Hns) (cfg : PolicyManagerCfg)
    (policy : NPMNetworkPolicy) (eps : List (String × String))
    (hp : nodupKeys policy.PodEndpoints) (he : nodupKeys eps) (ip id : String) :
    alLookup (addPolicy hns cfg policy eps).policy.PodEndpoints ip = some id ↔
      ((alLookup policy.PodEndpoints ip = some id ∧
          (alLookup eps ip = none ∨ alLookup eps ip = some id)) ∨
        (alLookup eps ip = some id ∧ ¬ alLookup policy.PodEndpoints ip = some id ∧
          applyReportedOK hns (reqOf cfg policy) id = true)) := by
  rw [addPolicy_eq]
  by_cases h0 : eps.isEmpty = true
  · rw [if_pos h0]
    rw [List.isEmpty_iff] at h0
    subst h0
    simp [alLookup_nil]
  · rw [if_neg h0]
    by_cases h1 : (scanPodEndpoints policy.PodEndpoints eps).2.isEmpty = true
    · rw [if_pos h1]
      rw [scanPodEndpoints_pods_lookup policy.PodEndpoints eps hp ip id]
      constructor
      · exact Or.inl
      · rintro (h | h)
        · exact h
        · exact (scanPodEndpoints_eps_lookup_none policy.PodEndpoints eps hp h1 ip id
            h.1 h.2.1).elim
    · rw [if_neg h1]
      rw [applyLoopW_pods_lookup hns (reqOf cfg policy)
        (scanPodEndpoints policy.PodEndpoints eps).2
        (scanPodEndpoints policy.PodEndpoints eps).1 none
        (nodupKeys_scanPodEndpoints_eps policy.PodEndpoints eps he) ip]
      cases he1 : alLookup (scanPodEndpoints policy.PodEndpoints eps).2 ip with
      | some id1 =>
        have h2 := (scanPodEndpoints_eps_lookup policy.PodEndpoints eps hp ip id1).mp he1
        have hpods1 : alLookup (scanPodEndpoints policy.PodEndpoints eps).1 ip = none := by
          cases hv : alLookup (scanPodEndpoints policy.PodEndpoints eps).1 ip with
          | none => rfl
          | some w =>
            have h3 := (scanPodEndpoints_pods_lookup policy.PodEndpoints eps hp ip w).mp hv
            rcases h3.2 with h4 | h4
            · rw [h2.1] at h4
              cases h4
            · rw [h2.1, Option.some.injEq] at h4
              exact absurd (h4 ▸ h3.1) h2.2
        simp only []
        by_cases hok : applyReportedOK hns (reqOf cfg policy) id1 = true
        · rw [if_pos hok]
          constructor
          · intro h
            rw [Option.some.injEq] at h
            subst h
            exact Or.inr ⟨h2.1, h2.2, hok⟩
          · rintro (h | h)
            · rcases h.2 with h4 | h4
              · rw [h2.1] at h4
                cases h4
              · rw [h2.1, Option.some.injEq] at h4
                exact absurd (h4 ▸ h.1) h2.2
            · rw [h2.1, Option.some.injEq] at h
              rw [h.1]
        · rw [if_neg hok, hpods1]
          constructor
          · intro h
            cases h
          · rintro (h | h)
            · rcases h.2 with h4 | h4
              · rw [h2.1] at h4
                cases h4
              · rw [h2.1, Option.some.injEq] at h4
                exact absurd (h4 ▸ h.1) h2.2
            · rw [h2.1, Option.some.injEq] at h
              exact absurd (h.1 ▸ h.2.2) hok
      | none =>
        simp only []
        rw [scanPodEndpoints_pods_lookup policy.PodEndpoints eps hp ip id]
        constructor
        · exact Or.inl
        · rintro (h | h)
          · exact h
          · have h5 : alLookup (scanPodEndpoints policy.PodEndpoints eps).2 ip = some id :=
              (scanPodEndpoints_eps_lookup policy.PodEndpoints eps hp ip id).mpr ⟨h.1, h.2.1⟩
            rw [he1] at h5
            cases h5

theorem addPolicy_endpointList_lookup (hns : Hns) (cfg : PolicyManagerCfg)
    (policy : NPMNetworkPolicy) (eps : List (String × String))
    (hp : nodupKeys policy.PodEndpoints) (ip id : String) :
    alLookup (addPolicy hns cfg policy eps).endpointList ip = some id ↔
      (alLookup eps ip = some id ∧ ¬ alLookup policy.PodEndpoints ip = some id) := by
  rw [addPolicy_eq]
  by_cases h0 : eps.isEmpty = true
  · rw [if_pos h0]
    rw [List.isEmpty_iff] at h0
    subst h0
    simp [alLookup_nil]
  · rw [if_neg h0]
    by_cases h1 : (scanPodEndpoints policy.PodEndpoints eps).2.isEmpty = true
    · rw [if_pos h1]
      exact scanPodEndpoints_eps_lookup policy.PodEndpoints eps hp ip id
    · rw [if_neg h1]
      exact scanPodEndpoints_eps_lookup policy.PodEndpoints eps hp ip id

theorem scanPodEndpoints_eps_of_nil_eps (pods : List (String × String)) :
    (scanPodEndpoints pods []).2 = [] := by
  induction pods with
  | nil => rw [scanPodEndpoints_nil]
  | cons q rest ih =>
    obtain ⟨ip, id⟩ := q
    rw [scanPodEndpoints_cons_none ip id rest [] (alLookup_nil ip)]
    exact ih

theorem addPolicy_events_eq (hns : Hns) (cfg : PolicyManagerCfg)
    (policy : NPMNetworkPolicy) (eps : List (String × String)) :
    (addPolicy hns cfg policy eps).events =
      ((scanPodEndpoints policy.PodEndpoints eps).2.map
        (fun e => (applyPoliciesToEndpointID hns e.2 (reqOf cfg policy)).2)).flatten := by
  rw [addPolicy_eq]
  by_cases h0 : eps.isEmpty = true
  · rw [if_pos h0]
    rw [List.isEmpty_iff] at h0
    subst h0
    rw [scanPodEndpoints_eps_of_nil_eps]
    rfl
  · rw [if_neg h0]
    by_cases h1 : (scanPodEndpoints policy.PodEndpoints eps).2.isEmpty = true
    · rw [if_pos h1]
      rw [List.isEmpty_iff] at h1
      rw [h1]
      rfl
    · rw [if_neg h1]
      exact applyLoopW_events hns (reqOf cfg policy) _ _ none

theorem addPolicy_policy_fields (hns : Hns) (cfg : PolicyManagerCfg)
    (policy : NPMNetworkPolicy) (eps : List (String × String)) :
    (addPolicy hns cfg policy eps).policy.PolicyKey = policy.PolicyKey ∧
      (addPolicy hns cfg policy eps).policy.ACLs = policy.ACLs ∧
      (addPolicy hns cfg policy eps).policy.ACLPolicyID = policy.ACLPolicyID := by
  rw [addPolicy_eq]
  by_cases h0 : eps.isEmpty = true
  · rw [if_pos h0]
    exact ⟨rfl, rfl, rfl⟩
  · rw [if_neg h0]
    by_cases h1 : (scanPodEndpoints policy.PodEndpoints eps).2.isEmpty = true
    · rw [if_pos h1]
      exact ⟨rfl, rfl, rfl⟩
    · rw [if_neg h1]
      exact ⟨rfl, rfl, rfl⟩

theorem collectAndValidate_ok_eq (normalize : NPMNetworkPolicy → NPMNetworkPolicy)
    (validate : NPMNetworkPolicy → Option String) (policies l : List NPMNetworkPolicy)
    (h : collectAndValidate normalize validate policies = .ok l) :
    l = (policies.filter (fun p => !p.ACLs.isEmpty)).map normalize := by
  induction policies generalizing l with
  | nil =>
    rw [collectAndValidate] at h
    cases h
    rfl
  | cons p rest ih =>
    rw [collectAndValidate] at h
    by_cases hempty : p.ACLs.isEmpty = true
    · rw [if_pos hempty] at h
      rw [List.filter_cons_of_neg (by simp [hempty])]
      exact ih l h
    · rw [if_neg hempty] at h
      cases hv : validate (normalize p) with
      | some e => rw [hv] at h; cases h
      | none =>
        rw [hv] at h
        cases hrec : collectAndValidate normalize validate rest with
        | error e => rw [hrec] at h; cases h
        | ok l1 =>
          rw [hrec] at h
          simp only [Except.map] at h
          cases h
          rw [List.filter_cons_of_pos (by simp [hempty]), List.map_cons]
          rw [ih l1 hrec]

theorem collectAndValidate_error_of_exists (normalize : NPMNetworkPolicy → NPMNetworkPolicy)
    (validate : NPMNetworkPolicy → Option String) (policies : List NPMNetworkPolicy)
    (h : ∃ p ∈ policies, p.ACLs.isEmpty = false ∧ (validate (normalize p)).isSome = true) :
    ∃ e, collectAndValidate normalize validate policies = .error e := by
  induction policies with
  | nil => simp at h
  | cons p rest ih =>
    rw [collectAndValidate]
    by_cases hempty : p.ACLs.isEmpty = true
    · rw [if_pos hempty]
      rcases h with ⟨q, hq, hne, hv⟩
      rcases List.mem_cons.mp hq with h1 | h1
      · rw [h1] at hne
        rw [hne] at hempty
        cases hempty
      · exact ih ⟨q, h1, hne, hv⟩
    · rw [if_neg hempty]
      cases hv : validate (normalize p) with
      | some e => exact ⟨"failed to validate policy: " ++ e, rfl⟩
      | none =>
        rcases h with ⟨q, hq, hne, hvq⟩
        rcases List.mem_cons.mp hq with h1 | h1
        · rw [h1] at hvq
          rw [hv] at hvq
          simp at hvq
        · rcases ih ⟨q, h1, hne, hvq⟩ with ⟨e, he⟩
          rw [he]
          exact ⟨e, rfl⟩

theorem collectAndValidate_all_empty (normalize : NPMNetworkPolicy → NPMNetworkPolicy)
    (validate : NPMNetworkPolicy → Option String) (policies : List NPMNetworkPolicy)
    (h : ∀ p ∈ policies, p.ACLs.isEmpty = true) :
    collectAndValidate normalize validate policies = .ok [] := by
  induction policies with
  | nil => rfl
  | cons p rest ih =>
    rw [collectAndValidate, if_pos (h p (List.mem_cons_self _ _))]
    exact ih (fun q hq => h q (List.mem_cons_of_mem _ hq))

theorem alLookup_alInsert_isSome {β : Type} (m : List (String × β)) (a k : String) (v : β)
    (h : (alLookup m k).isSome = true) : (alLookup (alInsert m a v) k).isSome = true := by
  rw [alLookup_alInsert]
  by_cases hak : a = k
  · rw [if_pos hak]; rfl
  · rw [if_neg hak]; exact h

theorem insertPolicies_isSome (cache : List (String × NPMNetworkPolicy))
    (ps : List NPMNetworkPolicy) (k : String)
    (h : k ∈ ps.map (fun p => p.PolicyKey) ∨ (alLookup cache k).isSome = true) :
    (alLookup (insertPolicies cache ps) k).isSome = true := by
  induction ps generalizing cache with
  | nil =>
    rcases h with h | h
    · simp at h
    · exact h
  | cons p rest ih =>
    rw [insertPolicies]
    rcases h with h | h
    · rw [List.map_cons] at h
      rcases List.mem_cons.mp h with h1 | h1
      · refine ih (alInsert cache p.PolicyKey p) (Or.inr ?_)
        rw [h1, alLookup_alInsert, if_pos rfl]
        rfl
      · exact ih _ (Or.inl h1)
    · exact ih _ (Or.inr (alLookup_alInsert_isSome cache p.PolicyKey k p h))

theorem addPoliciesW_success_keys (hns : Hns) (cfg : PolicyManagerCfg)
    (qs : List NPMNetworkPolicy) (eps : List (String × String))
    (h : (addPoliciesW hns cfg qs eps).2.2.1 = none) :
    ((addPoliciesW hns cfg qs eps).1).map (fun p => p.PolicyKey) =
      qs.map (fun p => p.PolicyKey) := by
  induction qs generalizing eps with
  | nil => rfl
  | cons q rest ih =>
    rw [addPoliciesW] at h ⊢
    cases he : (addPolicy hns cfg q eps).err with
    | some e =>
      rw [he] at h
      cases h
    | none =>
      rcases hrec : addPoliciesW hns cfg rest (addPolicy hns cfg q eps).endpointList with
        ⟨ps, eps1, err1, evs⟩
      simp only [he, hrec] at h ⊢
      simp only [List.map_cons]
      rw [(addPolicy_policy_fields hns cfg q eps).1]
      have h2 := ih (addPolicy hns cfg q eps).endpointList
      rw [hrec] at h2
      exact congrArg _ (h2 h)

theorem removePolicyByEndpointID_none_of_notFound (hns : Hns) (ruleID epID : String)
    (num : Nat) (b : Bool) (h : isNotFoundResp (hns.getEndpointByID epID) = true) :
    (removePolicyByEndpointID hns ruleID epID num b).1 = none := by
  unfold removePolicyByEndpointID
  cases hres : hns.getEndpointByID epID with
  | found pols =>
    rw [hres] at h
    simp [isNotFoundResp] at h
  | notFound => rfl
  | err msg =>
    rw [hres] at h
    simp only [isNotFoundResp] at h
    simp [h]

theorem removeLoop_agg_none (hns : Hns) (ruleID : String) (num : Nat)
    (eps pods : List (String × String))
    (h : ∀ p ∈ eps, (removePolicyByEndpointID hns ruleID p.2 num false).1 = none) :
    (removeLoop hns ruleID num eps pods none).2.1 = none := by
  induction eps generalizing pods with
  | nil => rfl
  | cons q rest ih =>
    obtain ⟨ip, id⟩ := q
    have h0 : (removePolicyByEndpointID hns ruleID id num false).1 = none :=
      h (ip, id) (List.mem_cons_self _ _)
    rw [removeLoop]
    rw [h0]
    simp only []
    rcases hrec : removeLoop hns ruleID num rest (alErase pods ip) none with ⟨pods1, agg1, evs⟩
    have h2 := ih (alErase pods ip) (fun p hp => h p (List.mem_cons_of_mem _ hp))
    rw [hrec] at h2
    exact h2

theorem ridOf_getSettingsFromACL (cfg : PolicyManagerCfg) (policy : NPMNetworkPolicy) :
    (match getSettingsFromACL cfg policy with
      | [] => ""
      | r :: _ => r.Id) = policy.ACLPolicyID := by
  unfold getSettingsFromACL
  cases policy.ACLs with
  | nil => rfl
  | cons a rest => rfl

theorem removePolicyW_none_eq (hns : Hns) (cfg : PolicyManagerCfg)
    (policy : NPMNetworkPolicy) :
    removePolicyW hns cfg policy none =
      if policy.PodEndpoints.isEmpty then
        { policy := policy, err := none, events := [] }
      else
        { policy := { policy with PodEndpoints :=
            (removeLoop hns
              (match getSettingsFromACL cfg policy with
                | [] => ""
                | r :: _ => r.Id)
              (getSettingsFromACL cfg policy).length
              policy.PodEndpoints policy.PodEndpoints none).1 }
          err := ((removeLoop hns
              (match getSettingsFromACL cfg policy with
                | [] => ""
                | r :: _ => r.Id)
              (getSettingsFromACL cfg policy).length
              policy.PodEndpoints policy.PodEndpoints none).2.1).map
            (fun e =>
              "[PolicyManagerWindows] while removing policy " ++ policy.PolicyKey ++ ", " ++ e)
          events := (removeLoop hns
              (match getSettingsFromACL cfg policy with
                | [] => ""
                | r :: _ => r.Id)
              (getSettingsFromACL cfg policy).length
              policy.PodEndpoints policy.PodEndpoints none).2.2 } :=
  rfl

theorem RemovePolicy_found_eq (hns : Hns) (cfg : PolicyManagerCfg)
    (st : PolicyManagerState) (policyKey : String) (policy : NPMNetworkPolicy)
    (h1 : alLookup st.cache policyKey = some policy) (h2 : policy.ACLs.isEmpty = false) :
    RemovePolicy hns cfg st policyKey =
      match (removePolicyW hns cfg policy none).err with
      | some e =>
        { state := { cache := alInsert st.cache policyKey (removePolicyW hns cfg policy none).policy }
          endpointList := [], err := some ("failed to remove policy: " ++ e)
          events := (removePolicyW hns cfg policy none).events }
      | none =>
        { state := { cache := alErase st.cache policyKey }
          endpointList := [], err := none
          events := (removePolicyW hns cfg policy none).events } := by
  unfold RemovePolicy
  simp only [h1, h2, Bool.false_eq_true, if_false]

theorem le_of_mem_matchingIndexesFrom (q : NPMACLPolSettings → Bool)
    (l : List NPMACLPolSettings) (i j : Nat)
    (h : j ∈ matchingIndexesFrom q i l) : i ≤ j := by
  induction l generalizing i with
  | nil => cases h
  | cons a rest ih =>
    rw [matchingIndexesFrom] at h
    by_cases hq : q a = true
    · rw [if_pos hq] at h
      rcases List.mem_cons.mp h with h1 | h1
      · exact h1 ▸ Nat.le_refl j
      · exact Nat.le_of_succ_le (ih (i + 1) h1)
    · rw [if_neg hq] at h
      exact Nat.le_of_succ_le (ih (i + 1) h)

theorem keepNotIndexed_cons_lt (m : List Nat) (k j : Nat) (l : List NPMACLPolSettings)
    (hk : k < j) : keepNotIndexed (k :: m) j l = keepNotIndexed m j l := by
  induction l generalizing j with
  | nil => rfl
  | cons a rest ih =>
    rw [keepNotIndexed, keepNotIndexed]
    have hkj : (j == k) = false := by
      simp
      exact (Nat.ne_of_lt hk).symm
    simp only [List.contains_cons, hkj, Bool.false_or]
    by_cases hc : m.contains j = true
    · rw [hc]
      simp only [if_true]
      exact ih (j + 1) (Nat.lt_succ_of_lt hk)
    · rw [Bool.not_eq_true] at hc
      rw [hc]
      simp only [Bool.false_eq_true, if_false]
      rw [ih (j + 1) (Nat.lt_succ_of_lt hk)]

theorem contains_eq_false_of_lt (m : List Nat) (i : Nat)
    (h : ∀ j ∈ m, i < j) : m.contains i = false := by
  induction m with
  | nil => rfl
  | cons j rest ih =>
    rw [List.contains_cons]
    have h1 : (i == j) = false := by
      simp
      exact Nat.ne_of_lt (h j (List.mem_cons_self _ _))
    rw [h1, ih (fun j' hj' => h j' (List.mem_cons_of_mem _ hj'))]
    rfl

theorem keepNotIndexed_matching (q : NPMACLPolSettings → Bool)
    (l : List NPMACLPolSettings) (i : Nat) :
    keepNotIndexed (matchingIndexesFrom q i l) i l = l.filter (fun a => !q a) := by
  induction l generalizing i with
  | nil => rfl
  | cons a rest ih =>
    rw [matchingIndexesFrom]
    by_cases hq : q a = true
    · rw [if_pos hq, keepNotIndexed]
      have hcont : ((i :: matchingIndexesFrom q (i + 1) rest).contains i) = true := by
        simp [List.contains_cons]
      rw [hcont]
      simp only [if_true]
      rw [keepNotIndexed_cons_lt _ i (i + 1) rest (Nat.lt_succ_self i), ih (i + 1),
        List.filter_cons_of_neg (by simp [hq])]
    · rw [if_neg hq, keepNotIndexed]
      have hcont : ((matchingIndexesFrom q (i + 1) rest).contains i) = false :=
        contains_eq_false_of_lt _ i (fun j hj =>
          Nat.lt_of_succ_le (le_of_mem_matchingIndexesFrom q rest (i + 1) j hj))
      rw [hcont]
      simp only [Bool.false_eq_true, if_false]
      rw [ih (i + 1), List.filter_cons_of_pos (by simp [hq])]

theorem matchingIndexesFrom_isEmpty (q : NPMACLPolSettings → Bool)
    (l : List NPMACLPolSettings) (i : Nat) :
    (matchingIndexesFrom q i l).isEmpty = true ↔ ∀ a ∈ l, q a = false := by
  induction l generalizing i with
  | nil => simp [matchingIndexesFrom]
  | cons a rest ih =>
    rw [matchingIndexesFrom]
    by_cases hq : q a = true
    · rw [if_pos hq]
      simp only [List.isEmpty_cons]
      constructor
      · intro h
        cases h
      · intro h
        rw [h a (List.mem_cons_self _ _)] at hq
        cases hq
    · rw [if_neg hq]
      rw [ih (i + 1)]
      constructor
      · intro h b hb
        rcases List.mem_cons.mp hb with h1 | h1
        · rw [h1]
          simpa using hq
        · exact h b h1
      · intro h b hb
        exact h b (List.mem_cons_of_mem _ hb)

theorem compareAndRemovePolicies_not_found (b : endpointPolicyBuilder) (rid : String)
    (cnt : Nat) (h : ∀ acl ∈ b.aclPolicies, (acl.Id == rid) = false) :
    b.compareAndRemovePolicies rid cnt = (b, false) := by
  unfold endpointPolicyBuilder.compareAndRemovePolicies
  rw [if_pos]
  exact (matchingIndexesFrom_isEmpty (fun acl => acl.Id == rid) b.aclPolicies 0).mpr h

theorem compareAndRemovePolicies_found (b : endpointPolicyBuilder) (rid : String)
    (cnt : Nat) (h : ¬ ∀ acl ∈ b.aclPolicies, (acl.Id == rid) = false) :
    b.compareAndRemovePolicies rid cnt =
      ({ b with aclPolicies := b.aclPolicies.filter (fun a => !(a.Id == rid)) }, true) := by
  unfold endpointPolicyBuilder.compareAndRemovePolicies
  have hne : ¬ (matchingIndexesFrom (fun acl => acl.Id == rid) 0 b.aclPolicies).isEmpty = true :=
    fun hc => h ((matchingIndexesFrom_isEmpty _ _ 0).mp hc)
  rw [if_neg hne]
  unfold endpointPolicyBuilder.removeACLPolicyAtIndex
  rw [if_neg (by simpa using hne)]
  rw [keepNotIndexed_matching]

theorem firstRules_extend (ruleOf : String → List NPMACLPolSettings) (b : aclBatch)
    (pr : List NPMACLPolSettings) (key : String) (h : b.policies ≠ []) :
    firstRules ruleOf { rules := b.rules ++ pr, policies := b.policies ++ [key] } =
      firstRules ruleOf b := by
  unfold firstRules
  cases hb : b.policies with
  | nil => exact absurd hb h
  | cons k rest => simp [hb]

theorem addToRevBatches_inv (maxBatched : Nat) (ruleOf : String → List NPMACLPolSettings)
    (rev : List aclBatch) (pr : List NPMACLPolSettings) (key : String)
    (hinv : revBatchesInv maxBatched ruleOf rev) (hr : pr = ruleOf key) :
    revBatchesInv maxBatched ruleOf (addToRevBatches maxBatched rev pr key) := by
  unfold addToRevBatches
  cases rev with
  | nil =>
    refine ⟨fun b hb => ?_, ?_⟩
    · rcases List.mem_singleton.mp hb with rfl
      exact ⟨⟨by simp, by simp [hr]⟩, Or.inl (by simp)⟩
    · simp
  | cons cur older =>
    dsimp only
    rcases hinv with ⟨hwf, hchain⟩
    have hcurwf := hwf cur (List.mem_cons_self _ _)
    by_cases hfit : cur.rules.length + pr.length ≤ maxBatched
    · rw [if_pos hfit]
      refine ⟨fun b hb => ?_, ?_⟩
      · rcases List.mem_cons.mp hb with rfl | hb1
        · refine ⟨⟨by simp [hcurwf.1.1], ?_⟩, Or.inr ?_⟩
          · simp only [List.map_append, List.flatten_append, List.map_cons, List.map_nil,
              List.flatten_cons, List.flatten_nil, List.append_nil]
            rw [hcurwf.1.2, hr]
          · simpa using hfit
        · exact hwf b (List.mem_cons_of_mem _ hb1)
      · cases older with
        | nil => simp
        | cons o rest =>
          rw [List.chain'_cons]
          rw [List.chain'_cons] at hchain
          refine ⟨?_, hchain.2⟩
          rw [firstRules_extend ruleOf cur pr key hcurwf.1.1]
          exact hchain.1
    · rw [if_neg hfit]
      refine ⟨fun b hb => ?_, ?_⟩
      · rcases List.mem_cons.mp hb with rfl | hb1
        · exact ⟨⟨by simp, by simp [hr]⟩, Or.inl (by simp)⟩
        · exact hwf b hb1
      · rw [List.chain'_cons]
        refine ⟨?_, hchain⟩
        unfold firstRules
        simp only []
        rw [← hr]
        exact Nat.lt_of_not_le (fun hc => hfit hc)

theorem batchLoop_inv (cfg : PolicyManagerCfg) (epToModifyID epToModifyIP : String)
    (ruleOf : String → List NPMACLPolSettings) (keysIter : List String)
    (cache : List (String × NPMNetworkPolicy)) (keys : List String) (rev : List aclBatch)
    (hc : ∀ k p, alLookup cache k = some p → ruleOf k = getSettingsFromACL cfg p)
    (hinv : revBatchesInv cfg.MaxBatchedACLsPerPod ruleOf rev) :
    revBatchesInv cfg.MaxBatchedACLsPerPod ruleOf
      (batchLoop cfg epToModifyID epToModifyIP keysIter cache keys rev).2.2 := by
  induction keysIter generalizing cache keys rev with
  | nil => exact hinv
  | cons key rest ih =>
    rw [batchLoop]
    cases hl : alLookup cache key with
    | none => exact ih cache (keys.erase key) rev hc hinv
    | some policy =>
      dsimp only
      cases hpe : alLookup policy.PodEndpoints epToModifyIP with
      | some epID =>
        dsimp only
        by_cases hsame : (epID == epToModifyID) = true
        · rw [if_pos hsame]
          exact ih cache (keys.erase key) rev hc hinv
        · rw [if_neg hsame]
          refine ih _ keys _ (fun k p hkp => ?_) ?_
          · rw [alLookup_alInsert] at hkp
            by_cases hk : key = k
            · rw [if_pos hk] at hkp
              cases hkp
              rw [← hk]
              exact hc key policy hl
            · rw [if_neg hk] at hkp
              exact hc k p hkp
          · exact addToRevBatches_inv cfg.MaxBatchedACLsPerPod ruleOf rev
              (getSettingsFromACL cfg { policy with
                PodEndpoints := alErase policy.PodEndpoints epToModifyIP }) key hinv
              (hc key policy hl).symm
      | none =>
        dsimp only
        refine ih cache keys _ hc ?_
        exact addToRevBatches_inv cfg.MaxBatchedACLsPerPod ruleOf rev
          (getSettingsFromACL cfg policy) key hinv (hc key policy hl).symm

/-- C4: for every configuration and policy, the rule set produced for the
endpoint-batching backend has length exactly len(policy.ACLs) + 1; the one
extra engine-injected rule is an inbound allow rule whose remote address is
the configured node IP, and it is present in the produced rule set regardless
of the user-specified ACL content. -/
theorem C4_injected_probe_rule (cfg : PolicyManagerCfg) (policy : NPMNetworkPolicy) :
    (getSettingsFromACL cfg policy).length = policy.ACLs.length + 1 ∧
    getSettingsFromACL cfg policy =
      policy.ACLs.map (fun acl => acl.convertToAclSettings policy.ACLPolicyID) ++
        [probeRule cfg policy] ∧
    probeRule cfg policy ∈ getSettingsFromACL cfg policy ∧
    (probeRule cfg policy).Direction = DirectionTypeIn ∧
    (probeRule cfg policy).Action = ActionTypeAllow ∧
    (probeRule cfg policy).RemoteAddresses = cfg.NodeIP := by
  refine ⟨?_, rfl, ?_, rfl, rfl, rfl⟩
  · unfold getSettingsFromACL
    simp
  · unfold getSettingsFromACL probeRule
    exact List.mem_append_right _ (List.mem_singleton.mpr rfl)

/-- C9 (amended): Bootup resets the dataplane on the given endpoints but never
touches the policy cache, so PolicyExists returns exactly what it returned
before the call for every key. -/
theorem C9_bootup_preserves_cache (hns : Hns) (cfg : PolicyManagerCfg)
    (st : PolicyManagerState) (epIDs : List String) :
    (Bootup hns cfg st epIDs).state = st ∧
    ∀ key, PolicyExists (Bootup hns cfg st epIDs).state key = PolicyExists st key := by
  have h : (Bootup hns cfg st epIDs).state = st := by
    unfold Bootup
    rcases hb : bootupLoop hns epIDs none with ⟨agg, evs⟩
    cases agg with
    | some e => rfl
    | none =>
      dsimp only
      by_cases hip : (cfg.NodeIP == "") = true
      · rw [if_pos hip]
      · rw [if_neg hip]
  exact ⟨h, fun key => by rw [h]⟩

/-- C9 counterexample: with a cached policy, a successful Bootup returns and
PolicyExists is still true for the previously cached key, contradicting the
claim that it becomes false for every previously cached key. -/
theorem C9_counterexample :
    (Bootup hnsAllNotFound cfgNode stXA ["e1"]).err = none ∧
    PolicyExists (Bootup hnsAllNotFound cfgNode stXA ["e1"]).state "x/a" = true := by
  exact ⟨rfl, rfl⟩

/-- C2 counterexample: applying a fresh policy to an endpoint that HNS reports
as not found records the (address, endpoint ID) pair in PodEndpoints even
though no backend policy-application call was made (let alone succeeded),
refuting the claim that the mapping contains exactly the pairs for which a
backend policy-application call is known to have succeeded. -/
theorem C2_counterexample :
    (addPolicy hnsAllNotFound cfgNode polXA [("10.0.0.5", "test10")]).policy.PodEndpoints =
      [("10.0.0.5", "test10")] ∧
    (addPolicy hnsAllNotFound cfgNode polXA
        [("10.0.0.5", "test10")]).events.all (fun ev => !ev.isApply) = true := by
  exact ⟨rfl, rfl⟩

/-- C2 (amended): after the endpoint-batching backend's addPolicy, the
policy's PodEndpoints mapping contains exactly the previously recorded pairs
not invalidated by the call (the address is absent from the endpoint list or
maps to the same endpoint ID) plus those pairs of the endpoint list for which
the backend application call was reported successful — where an
endpoint-not-found response is reported as success; in particular, when
application to endpoint B fails while A and C succeed, only A and C appear in
the mapping afterward. -/
theorem C2_pods_exactly_reported (hns : Hns) (cfg : PolicyManagerCfg)
    (policy : NPMNetworkPolicy) (eps : List (String × String))
    (hp : nodupKeys policy.PodEndpoints) (he : nodupKeys eps) (ip id : String) :
    alLookup (addPolicy hns cfg policy eps).policy.PodEndpoints ip = some id ↔
      ((alLookup policy.PodEndpoints ip = some id ∧
          (alLookup eps ip = none ∨ alLookup eps ip = some id)) ∨
        (alLookup eps ip = some id ∧ ¬ alLookup policy.PodEndpoints ip = some id ∧
          applyReportedOK hns (reqOf cfg policy) id = true)) :=
  addPolicy_pods_lookup hns cfg policy eps hp he ip id

/-- C2 witness: in the A/B/C scenario where applying to endpoint b fails, the
mapping gains A (via the theorem) and C but not B. -/
theorem C2_witness :
    nodupKeys polXA.PodEndpoints ∧ nodupKeys epsABC ∧
    alLookup (addPolicy hnsSkipB cfgNode polXA epsABC).policy.PodEndpoints "10.0.0.1" =
      some "a" ∧
    alLookup (addPolicy hnsSkipB cfgNode polXA epsABC).policy.PodEndpoints "10.0.0.3" =
      some "c" ∧
    alLookup (addPolicy hnsSkipB cfgNode polXA epsABC).policy.PodEndpoints "10.0.0.2" =
      none := by
  refine ⟨by decide, by decide, ?_, ?_, by decide⟩
  · exact (C2_pods_exactly_reported hnsSkipB cfgNode polXA epsABC (by decide) (by decide)
      "10.0.0.1" "a").mpr (Or.inr ⟨by decide, by decide, by decide⟩)
  · exact (C2_pods_exactly_reported hnsSkipB cfgNode polXA epsABC (by decide) (by decide)
      "10.0.0.3" "c").mpr (Or.inr ⟨by decide, by decide, by decide⟩)

/-- C8: an endpoint whose (address, ID) pair already appears in the policy's
PodEndpoints is deleted from the endpoint list (so re-application is
idempotent and no backend call is made for it when no other list entry shares
its endpoint ID), and when the recorded endpoint ID for an address differs
from the ID now observed, the stale pair is purged and — when the backend
reports success — the address maps to the new endpoint ID only. -/
theorem C8_skip_and_stale (hns : Hns) (cfg : PolicyManagerCfg)
    (policy : NPMNetworkPolicy) (eps : List (String × String))
    (hp : nodupKeys policy.PodEndpoints) (he : nodupKeys eps) (ip id : String) :
    (alLookup policy.PodEndpoints ip = some id →
      alLookup eps ip = some id →
        alLookup (addPolicy hns cfg policy eps).endpointList ip = none ∧
        alLookup (addPolicy hns cfg policy eps).policy.PodEndpoints ip = some id ∧
        ((∀ p ∈ eps, p.2 = id → p.1 = ip) →
          ∀ ev ∈ (addPolicy hns cfg policy eps).events, ev.epIDOf ≠ id)) ∧
    (∀ oldID newID, alLookup policy.PodEndpoints ip = some oldID →
      alLookup eps ip = some newID → oldID ≠ newID →
        ¬ alLookup (addPolicy hns cfg policy eps).policy.PodEndpoints ip = some oldID ∧
        (applyReportedOK hns (reqOf cfg policy) newID = true →
          alLookup (addPolicy hns cfg policy eps).policy.PodEndpoints ip = some newID)) := by
  constructor
  · intro h1 h2
    refine ⟨?_, ?_, ?_⟩
    · cases hv : alLookup (addPolicy hns cfg policy eps).endpointList ip with
      | none => rfl
      | some z =>
        have h3 := (addPolicy_endpointList_lookup hns cfg policy eps hp ip z).mp hv
        rw [h2, Option.some.injEq] at h3
        exact absurd (h3.1 ▸ h1) h3.2
    · exact (addPolicy_pods_lookup hns cfg policy eps hp he ip id).mpr
        (Or.inl ⟨h1, Or.inr h2⟩)
    · intro huniq ev hev heq
      rw [addPolicy_events_eq] at hev
      rcases List.mem_flatten.mp hev with ⟨evs1, hevs1, hev1⟩
      rcases List.mem_map.mp hevs1 with ⟨e, he1, hfe⟩
      have hep : ev.epIDOf = e.2 := by
        rw [← hfe] at hev1
        exact epIDOf_applyPoliciesToEndpointID hns e.2 (reqOf cfg policy) ev hev1
      have he2 : e.2 = id := by rw [← hep, heq]
      have hmem : e ∈ eps := mem_scanPodEndpoints_eps policy.PodEndpoints eps e he1
      have hip : e.1 = ip := huniq e hmem he2
      have hnd1 : nodupKeys (scanPodEndpoints policy.PodEndpoints eps).2 :=
        nodupKeys_scanPodEndpoints_eps policy.PodEndpoints eps he
      have hl1 : alLookup (scanPodEndpoints policy.PodEndpoints eps).2 e.1 = some e.2 :=
        alLookup_eq_some_of_mem _ e.1 e.2 hnd1 (by rw [← Prod.mk.eta (p := e)] at he1; exact he1)
      have hl2 := (scanPodEndpoints_eps_lookup policy.PodEndpoints eps hp e.1 e.2).mp hl1
      rw [hip, he2] at hl2
      exact hl2.2 h1
  · intro oldID newID h1 h2 hne
    constructor
    · intro hv
      rcases (addPolicy_pods_lookup hns cfg policy eps hp he ip oldID).mp hv with h3 | h3
      · rcases h3.2 with h4 | h4
        · rw [h2] at h4
          cases h4
        · rw [h2, Option.some.injEq] at h4
          exact hne h4.symm
      · rw [h2, Option.some.injEq] at h3
        exact hne h3.1.symm
    · intro hok
      refine (addPolicy_pods_lookup hns cfg policy eps hp he ip newID).mpr (Or.inr ⟨h2, ?_, hok⟩)
      intro hc
      rw [h1, Option.some.injEq] at hc
      exact hne hc

/-- C8 witness: with one already-carried endpoint (skipped, and the caller's
list loses it; no backend call addresses e1) and one reused address now
carrying a new endpoint ID (stale pair purged, policy granted to the new
endpoint only). -/
theorem C8_witness :
    alLookup (addPolicy hnsAllFound cfgNode polXAStale epsC8).endpointList "10.0.0.1" =
      none ∧
    alLookup (addPolicy hnsAllFound cfgNode polXAStale epsC8).policy.PodEndpoints
      "10.0.0.1" = some "e1" ∧
    ¬ alLookup (addPolicy hnsAllFound cfgNode polXAStale epsC8).policy.PodEndpoints
      "10.0.0.2" = some "eOld" ∧
    alLookup (addPolicy hnsAllFound cfgNode polXAStale epsC8).policy.PodEndpoints
      "10.0.0.2" = some "eNew" ∧
    (addPolicy hnsAllFound cfgNode polXAStale epsC8).events.all
      (fun ev => ev.epIDOf != "e1") = true := by
  have h1 := (C8_skip_and_stale hnsAllFound cfgNode polXAStale epsC8 (by decide) (by decide)
    "10.0.0.1" "e1").1 (by decide) (by decide)
  have h2 := (C8_skip_and_stale hnsAllFound cfgNode polXAStale epsC8 (by decide) (by decide)
    "10.0.0.2" "e1").2 "eOld" "eNew" (by decide) (by decide) (by decide)
  exact ⟨h1.1, h1.2.1, h2.1, h2.2 (by decide), by decide⟩

/-- C10: addPolicy (and hence AddPolicies) mutates the caller-supplied
endpoint list: every entry whose address is recorded in the policy's
PodEndpoints with the same endpoint ID is deleted, and no entry is ever added,
so the caller's map can come back smaller. -/
theorem C10_endpointList_mutation (hns : Hns) (cfg : PolicyManagerCfg)
    (policy : NPMNetworkPolicy) (eps : List (String × String))
    (hp : nodupKeys policy.PodEndpoints) (ip id : String) :
    (alLookup policy.PodEndpoints ip = some id →
      alLookup eps ip = some id →
        alLookup (addPolicy hns cfg policy eps).endpointList ip = none) ∧
    (alLookup (addPolicy hns cfg policy eps).endpointList ip = some id →
      alLookup eps ip = some id) := by
  constructor
  · intro h1 h2
    cases hv : alLookup (addPolicy hns cfg policy eps).endpointList ip with
    | none => rfl
    | some z =>
      have h3 := (addPolicy_endpointList_lookup hns cfg policy eps hp ip z).mp hv
      rw [h2, Option.some.injEq] at h3
      exact absurd (h3.1 ▸ h1) h3.2
  · intro hv
    exact ((addPolicy_endpointList_lookup hns cfg policy eps hp ip id).mp hv).1

/-- C10 witness: re-applying a policy already carried by endpoint e1 with a
two-entry endpoint list returns (through AddPolicies) a caller-visible list
with one entry fewer; the already-carried address is gone. -/
theorem C10_witness :
    alLookup (addPolicy hnsAllFound cfgNode polXAEp epsC10).endpointList "10.0.0.1" =
      none ∧
    (AddPolicies hnsAllFound cfgNode (fun p => p) (fun _ => none) stEmpty [polXAEp]
        epsC10).endpointList.length = 1 ∧
    epsC10.length = 2 := by
  refine ⟨?_, by decide, by decide⟩
  exact (C10_endpointList_mutation hnsAllFound cfgNode polXAEp epsC10 (by decide)
    "10.0.0.1" "e1").1 (by decide) (by decide)

/-- C1 counterexample: with a backend that fails the apply call on the only
endpoint, AddPolicies returns an error and the validated non-empty policy is
NOT in the cache afterward — refuting the claim that the policy object is
inserted into the cache regardless of backend failure. -/
theorem C1_counterexample :
    (AddPolicies hnsApplyFail cfgNode (fun p => p) (fun _ => none) stEmpty [polXA]
        [("10.0.0.1", "e1")]).err.isSome = true ∧
    PolicyExists (AddPolicies hnsApplyFail cfgNode (fun p => p) (fun _ => none) stEmpty
        [polXA] [("10.0.0.1", "e1")]).state "x/a" = false := by
  exact ⟨rfl, rfl⟩

/-- C1 (amended): a policy passed to AddPolicies is inserted into the cache
exactly on the no-error path: when the backend (or validation) reports an
error the call returns that error with the cache unchanged, and when no error
is reported every non-empty policy of the call is in the cache on return. -/
theorem C1_cache_insertion_iff_no_error (hns : Hns) (cfg : PolicyManagerCfg)
    (normalize : NPMNetworkPolicy → NPMNetworkPolicy)
    (validate : NPMNetworkPolicy → Option String) (st : PolicyManagerState)
    (policies : List NPMNetworkPolicy) (eps : List (String × String)) :
    ((AddPolicies hns cfg normalize validate st policies eps).err.isSome = true →
      (AddPolicies hns cfg normalize validate st policies eps).state = st) ∧
    ((AddPolicies hns cfg normalize validate st policies eps).err = none →
      ∀ p ∈ policies, p.ACLs.isEmpty = false →
        PolicyExists (AddPolicies hns cfg normalize validate st policies eps).state
          ((normalize p).PolicyKey) = true) := by
  unfold AddPolicies
  cases hcv : collectAndValidate normalize validate policies with
  | error e => exact ⟨fun _ => rfl, fun h => (by cases h)⟩
  | ok l =>
    dsimp only
    by_cases hl : l.isEmpty = true
    · rw [if_pos hl]
      refine ⟨fun h => (by cases h), fun _ p hp hne => ?_⟩
      exfalso
      have h1 := collectAndValidate_ok_eq normalize validate policies l hcv
      rw [List.isEmpty_iff] at hl
      rw [hl] at h1
      have h2 : p ∈ policies.filter (fun p => !p.ACLs.isEmpty) :=
        List.mem_filter.mpr ⟨hp, by rw [hne]; rfl⟩
      have h3 : normalize p ∈ (policies.filter (fun p => !p.ACLs.isEmpty)).map normalize :=
        List.mem_map.mpr ⟨p, h2, rfl⟩
      rw [← h1] at h3
      cases h3
    · rw [if_neg hl]
      rcases hw : addPoliciesW hns cfg l eps with ⟨ps, eps1, err1, evs⟩
      dsimp only
      cases err1 with
      | some e => exact ⟨fun _ => rfl, fun h => (by cases h)⟩
      | none =>
        refine ⟨fun h => (by cases h), fun _ p hp hne => ?_⟩
        unfold PolicyExists
        refine insertPolicies_isSome st.cache ps ((normalize p).PolicyKey) (Or.inl ?_)
        have hkeys := addPoliciesW_success_keys hns cfg l eps
        rw [hw] at hkeys
        have hkeys1 := hkeys rfl
        rw [hkeys1]
        have h1 := collectAndValidate_ok_eq normalize validate policies l hcv
        have h2 : p ∈ policies.filter (fun p => !p.ACLs.isEmpty) :=
          List.mem_filter.mpr ⟨hp, by rw [hne]; rfl⟩
        have h3 : normalize p ∈ l := by
          rw [h1]
          exact List.mem_map.mpr ⟨p, h2, rfl⟩
        exact List.mem_map.mpr ⟨normalize p, h3, rfl⟩

/-- C1 witness: on a successful call the error is none and the policy is
cached. -/
theorem C1_witness :
    (AddPolicies hnsAllFound cfgNode (fun p => p) (fun _ => none) stEmpty [polXA]
        [("10.0.0.1", "e1")]).err = none ∧
    PolicyExists (AddPolicies hnsAllFound cfgNode (fun p => p) (fun _ => none) stEmpty
        [polXA] [("10.0.0.1", "e1")]).state "x/a" = true := by
  refine ⟨by decide, ?_⟩
  exact (C1_cache_insertion_iff_no_error hnsAllFound cfgNode (fun p => p) (fun _ => none)
    stEmpty [polXA] [("10.0.0.1", "e1")]).2 (by decide) polXA (List.mem_cons_self _ _)
    (by decide)

/-- C7: when validation fails for any non-empty input policy, AddPolicies
returns an error with the cache completely unchanged, the caller's endpoint
list untouched and no backend call made; and a call in which every policy has
zero ACL rules is a successful no-op (the empty policies are discarded and
never cause an error). -/
theorem C7_validation_aborts_before_mutation (hns : Hns) (cfg : PolicyManagerCfg)
    (normalize : NPMNetworkPolicy → NPMNetworkPolicy)
    (validate : NPMNetworkPolicy → Option String) (st : PolicyManagerState)
    (policies : List NPMNetworkPolicy) (eps : List (String × String)) :
    ((∃ p ∈ policies, p.ACLs.isEmpty = false ∧ (validate (normalize p)).isSome = true) →
      (AddPolicies hns cfg normalize validate st policies eps).err.isSome = true ∧
      (AddPolicies hns cfg normalize validate st policies eps).state = st ∧
      (AddPolicies hns cfg normalize validate st policies eps).events = [] ∧
      (AddPolicies hns cfg normalize validate st policies eps).endpointList = eps) ∧
    ((∀ p ∈ policies, p.ACLs.isEmpty = true) →
      (AddPolicies hns cfg normalize validate st policies eps).err = none ∧
      (AddPolicies hns cfg normalize validate st policies eps).state = st ∧
      (AddPolicies hns cfg normalize validate st policies eps).events = [] ∧
      (AddPolicies hns cfg normalize validate st policies eps).endpointList = eps) := by
  constructor
  · intro hex
    rcases collectAndValidate_error_of_exists normalize validate policies hex with ⟨e, he⟩
    unfold AddPolicies
    rw [he]
    exact ⟨rfl, rfl, rfl, rfl⟩
  · intro hall
    have he := collectAndValidate_all_empty normalize validate policies hall
    unfold AddPolicies
    rw [he]
    exact ⟨rfl, rfl, rfl, rfl⟩

/-- C7 witness: a one-policy call whose policy fails validation errors out
with no cache, endpoint-list or backend effect. -/
theorem C7_witness :
    (AddPolicies hnsAllFound cfgNode (fun p => p) validateRejectXA stEmpty [polXA]
        [("10.0.0.1", "e1")]).err.isSome = true ∧
    (AddPolicies hnsAllFound cfgNode (fun p => p) validateRejectXA stEmpty [polXA]
        [("10.0.0.1", "e1")]).state = stEmpty ∧
    (AddPolicies hnsAllFound cfgNode (fun p => p) validateRejectXA stEmpty [polXA]
        [("10.0.0.1", "e1")]).events = [] := by
  have h := (C7_validation_aborts_before_mutation hnsAllFound cfgNode (fun p => p)
    validateRejectXA stEmpty [polXA] [("10.0.0.1", "e1")]).1
    ⟨polXA, List.mem_cons_self _ _, by decide, by decide⟩
  exact ⟨h.1, h.2.1, h.2.2.1⟩

/-- C6 counterexample: with a cached one-ACL policy applied to one endpoint
whose GetEndpointByID fails with a non-not-found error, RemovePolicy returns a
combined error but the cache entry is NOT deleted (PolicyExists is still
true), refuting the claim that the entry is deleted even on failure. -/
theorem C6_counterexample :
    (RemovePolicy hnsGetErr cfgNode stXAEp "x/a").err.isSome = true ∧
    PolicyExists (RemovePolicy hnsGetErr cfgNode stXAEp "x/a").state "x/a" = true := by
  exact ⟨by decide, by decide⟩

/-- C6 (amended): for a cached policy with at least one ACL, if removal from
some endpoint fails for a reason other than endpoint-not-found, RemovePolicy
returns a combined error and the cache entry is retained (PolicyExists stays
true) so a later retry can remove it; the entry is deleted exactly on the
no-error path, and endpoint-not-found responses are treated as already
removed and never cause the call to fail. -/
theorem C6_remove_error_keeps_cache (hns : Hns) (cfg : PolicyManagerCfg)
    (st : PolicyManagerState) (policyKey : String) (policy : NPMNetworkPolicy)
    (h1 : alLookup st.cache policyKey = some policy)
    (h2 : policy.ACLs.isEmpty = false) :
    ((RemovePolicy hns cfg st policyKey).err.isSome = true →
      PolicyExists (RemovePolicy hns cfg st policyKey).state policyKey = true) ∧
    ((RemovePolicy hns cfg st policyKey).err = none →
      PolicyExists (RemovePolicy hns cfg st policyKey).state policyKey = false) ∧
    ((∀ p ∈ policy.PodEndpoints, isNotFoundResp (hns.getEndpointByID p.2) = true) →
      (RemovePolicy hns cfg st policyKey).err = none) := by
  rw [RemovePolicy_found_eq hns cfg st policyKey policy h1 h2]
  refine ⟨?_, ?_, ?_⟩
  · cases hre : (removePolicyW hns cfg policy none).err with
    | some e =>
      intro _
      unfold PolicyExists
      dsimp only
      rw [alLookup_alInsert, if_pos rfl]
      rfl
    | none =>
      intro h
      cases h
  · cases hre : (removePolicyW hns cfg policy none).err with
    | some e =>
      intro h
      cases h
    | none =>
      intro _
      unfold PolicyExists
      dsimp only
      rw [alLookup_alErase, if_pos rfl]
      rfl
  · intro hnf
    have hre : (removePolicyW hns cfg policy none).err = none := by
      rw [removePolicyW_none_eq]
      by_cases hemp : policy.PodEndpoints.isEmpty = true
      · rw [if_pos hemp]
      · rw [if_neg hemp]
        dsimp only
        have hagg := removeLoop_agg_none hns
          (match getSettingsFromACL cfg policy with
            | [] => ""
            | r :: _ => r.Id)
          (getSettingsFromACL cfg policy).length
          policy.PodEndpoints policy.PodEndpoints
          (fun p hp => removePolicyByEndpointID_none_of_notFound hns _ p.2 _ false
            (hnf p hp))
        rw [hagg]
        rfl
    rw [hre]

/-- C6 witness: a cached policy whose only endpoint is reported not-found is
removed without error and its cache entry is gone. -/
theorem C6_witness :
    (RemovePolicy hnsAllNotFound cfgNode stXAEp "x/a").err = none ∧
    PolicyExists (RemovePolicy hnsAllNotFound cfgNode stXAEp "x/a").state "x/a" = false := by
  have h := C6_remove_error_keeps_cache hnsAllNotFound cfgNode stXAEp "x/a" polXAEp
    (by decide) (by decide)
  have herr := h.2.2 (by decide)
  exact ⟨herr, h.2.1 herr⟩

/-- C5 counterexample: endpoint e1 carries two owned ACL entries matching the
rule ID; a targeted removal with countToRemove = 1 removes both (the
re-applied request retains zero of them), refuting "exactly countToRemove
entries matching ruleID are removed". -/
theorem C5_counterexample :
    (splitEndpointPolicies [.other "L4" "opaque", .acl setXA6,
        .acl setXA17]).aclPolicies.length = 2 ∧
    removePolicyByEndpointID hnsTwoMatching "azure-acl-x-a" "e1" 1 false =
      (none, [HnsEvent.getEP "e1",
        HnsEvent.applyPolicy "e1" RequestType.update
          { Policies := [EndpointPolicy.other "L4" "opaque"] }]) := by
  exact ⟨rfl, rfl⟩

/-- C5 (amended): for a targeted (non-reset) removePolicyByEndpointID call on
an endpoint whose policy list is retrievable, the list is partitioned into
ACL-typed and foreign entries; ALL entries matching ruleID are removed (the
countToRemove argument only feeds a discrepancy log); if zero entries match,
the call returns success without issuing any policy-apply call; otherwise the
re-applied replace-type request carries the remaining ACL entries preceded by
all foreign entries, unchanged. -/
theorem C5_targeted_removal (hns : Hns) (ruleID epID : String) (cnt : Nat)
    (pols : List EndpointPolicy)
    (h : hns.getEndpointByID epID = EndpointResult.found pols) :
    ((splitEndpointPolicies pols).aclPolicies.all (fun a => !(a.Id == ruleID)) = true →
      removePolicyByEndpointID hns ruleID epID cnt false = (none, [HnsEvent.getEP epID])) ∧
    ((splitEndpointPolicies pols).aclPolicies.any (fun a => a.Id == ruleID) = true →
      removePolicyByEndpointID hns ruleID epID cnt false =
        (if hns.applySucceeds epID RequestType.update
            { Policies := (splitEndpointPolicies pols).otherPolicies ++
                ((splitEndpointPolicies pols).aclPolicies.filter
                  (fun a => !(a.Id == ruleID))).map EndpointPolicy.acl } then
          (none, [HnsEvent.getEP epID,
            HnsEvent.applyPolicy epID RequestType.update
              { Policies := (splitEndpointPolicies pols).otherPolicies ++
                  ((splitEndpointPolicies pols).aclPolicies.filter
                    (fun a => !(a.Id == ruleID))).map EndpointPolicy.acl }])
        else
          (some ("unable to apply changes when removing policy. policy: " ++ ruleID
              ++ ", endpoint: " ++ epID),
            [HnsEvent.getEP epID,
              HnsEvent.applyPolicy epID RequestType.update
                { Policies := (splitEndpointPolicies pols).otherPolicies ++
                    ((splitEndpointPolicies pols).aclPolicies.filter
                      (fun a => !(a.Id == ruleID))).map EndpointPolicy.acl }]))) := by
  unfold removePolicyByEndpointID
  rw [h]
  dsimp only
  constructor
  · intro hall
    have hall' : ∀ acl ∈ (splitEndpointPolicies pols).aclPolicies, (acl.Id == ruleID) = false :=
      fun acl ha => by simpa using List.all_eq_true.mp hall acl ha
    rw [compareAndRemovePolicies_not_found (splitEndpointPolicies pols) ruleID cnt hall']
    simp
  · intro hany
    have hne : ¬ ∀ acl ∈ (splitEndpointPolicies pols).aclPolicies, (acl.Id == ruleID) = false := by
      rcases List.any_eq_true.mp hany with ⟨a, ha, hid⟩
      intro hc
      rw [hc a ha] at hid
      cases hid
    rw [compareAndRemovePolicies_found (splitEndpointPolicies pols) ruleID cnt hne]
    simp only [Bool.false_eq_true, if_false]
    rfl

/-- C5 witness: one matching owned entry, one owned entry of another policy
and one foreign policy; the re-applied request holds the foreign entry first
and the surviving owned entry, and the call succeeds. -/
theorem C5_witness :
    removePolicyByEndpointID hnsOneMatching "azure-acl-x-a" "e1" 1 false =
      (none, [HnsEvent.getEP "e1",
        HnsEvent.applyPolicy "e1" RequestType.update
          { Policies := [EndpointPolicy.other "L4" "opaque", EndpointPolicy.acl setXB] }]) := by
  have h := (C5_targeted_removal hnsOneMatching "azure-acl-x-a" "e1" 1
    [.acl setXA6, .other "L4" "opaque", .acl setXB] (by decide)).2 (by decide)
  exact h.trans (by decide)

/-- C3: batchPolicies partitions the queued policies' rule sets into batches
such that no policy's rules are split across two batches (each batch's rules
are the concatenation of its policies' whole rule sets), every batch contains
at least one complete policy even when that policy's rule count alone exceeds
MaxBatchedACLsPerPod, a policy is appended to an existing batch only when the
result stays within the maximum (so no batch exceeds MaxBatchedACLsPerPod
unless it consists of exactly its single opening policy), a new batch is
opened exactly when appending the next policy's whole rule set would exceed
the maximum, and the total number of rules across all batches equals the sum
of the rule counts of the batched policies (no rule is dropped). -/
theorem C3_batching_partition (cfg : PolicyManagerCfg) (st : PolicyManagerState)
    (policyKeys : List String) (epToModifyID epToModifyIP : String) :
    (∀ b ∈ (batchPolicies cfg st policyKeys epToModifyID epToModifyIP).2.2,
      b.policies ≠ [] ∧
      b.rules = (b.policies.map (ruleSetOf cfg st)).flatten ∧
      b.rules.length = ((b.policies.map (ruleSetOf cfg st)).map List.length).sum) ∧
    (∀ b ∈ (batchPolicies cfg st policyKeys epToModifyID epToModifyIP).2.2,
      b.rules.length ≤ cfg.MaxBatchedACLsPerPod ∨ b.policies.length = 1) ∧
    List.Chain' (fun b1 b2 =>
        cfg.MaxBatchedACLsPerPod < b1.rules.length +
          (firstRules (ruleSetOf cfg st) b2).length)
      (batchPolicies cfg st policyKeys epToModifyID epToModifyIP).2.2 ∧
    (((batchPolicies cfg st policyKeys epToModifyID epToModifyIP).2.2.map
        (fun b => b.rules.length)).sum =
      ((batchPolicies cfg st policyKeys epToModifyID epToModifyIP).2.2.map
        (fun b => ((b.policies.map (ruleSetOf cfg st)).map List.length).sum)).sum) := by
  have hc : ∀ k p, alLookup st.cache k = some p →
      ruleSetOf cfg st k = getSettingsFromACL cfg p := by
    intro k p hkp
    unfold ruleSetOf
    rw [hkp]
  have hinv := batchLoop_inv cfg epToModifyID epToModifyIP (ruleSetOf cfg st) policyKeys
    st.cache policyKeys [] hc ⟨fun b hb => (by cases hb), List.chain'_nil⟩
  unfold batchPolicies
  rcases hb : batchLoop cfg epToModifyID epToModifyIP policyKeys st.cache policyKeys [] with
    ⟨cache1, keys1, rev⟩
  rw [hb] at hinv
  dsimp only
  have hwf : ∀ b ∈ rev.reverse,
      batchWF (ruleSetOf cfg st) b ∧ batchCap cfg.MaxBatchedACLsPerPod b :=
    fun b hb1 => hinv.1 b (List.mem_reverse.mp hb1)
  refine ⟨?_, ?_, ?_, ?_⟩
  · intro b hb1
    have h1 := (hwf b hb1).1
    refine ⟨h1.1, h1.2, ?_⟩
    rw [h1.2]
    exact List.length_flatten _
  · intro b hb1
    rcases (hwf b hb1).2 with hle | hlen
    · refine Or.inr (Nat.le_antisymm hle ?_)
      exact List.length_pos.mpr (hwf b hb1).1.1
    · exact Or.inl hlen
  · exact List.chain'_reverse.mpr hinv.2
  · refine congrArg List.sum (List.map_congr_left (fun b hb1 => ?_))
    have h1 := (hwf b hb1).1
    rw [h1.2]
    exact List.length_flatten _

/-- C3 witness: with a 10-rule and a 25-rule policy under a 20-rule maximum,
the two policies land in separate whole batches of 10 and 25 rules (total 35,
nothing dropped); the first batch satisfies the partition property within the
maximum, and the over-sized second batch consists of exactly its single
opening policy. -/
theorem C3_witness :
    (batchesEx.map (fun b => (b.policies, b.rules.length))) =
      [(["p1"], 10), (["p2"], 25)] ∧
    batchEx1.policies ≠ [] ∧
    batchEx1.rules = (batchEx1.policies.map (ruleSetOf cfgBatch stBatch)).flatten ∧
    batchEx1.rules.length ≤ cfgBatch.MaxBatchedACLsPerPod ∧
    batchEx2.rules.length = 25 ∧
    batchEx2.policies.length = 1 := by
  have h := C3_batching_partition cfgBatch stBatch ["p1", "p2"] "eX" "ipX"
  have h1 := h.1 batchEx1 (by decide)
  have hcap2 := h.2.1 batchEx2 (by decide)
  have hone : batchEx2.policies.length = 1 := by
    rcases hcap2 with hle | hlen
    · exact absurd hle (by decide)
    · exact hlen
  exact ⟨by decide, h1.1, h1.2.1, by decide, by decide, hone⟩
